import Mathlib

/-!
# Music contract evaluators (graphene::chain)

A shallow embedding of `libraries/chain/music_contract_evaluator.cpp` together with
the object and operation declarations it works on
(`music_contract_object.hpp`, `protocol/music_contract.hpp`).

* Identifiers (`account_id_type`, `asset_id_type`, object ids) are natural numbers; the
  default-constructed identifier is `0`, so `asset_id_type()` (the core asset) is `0`.
* `share_type` quantities are integers, `time_point_sec` values are natural numbers.
* An evaluator runs `do_evaluate` (read only) and then `do_apply`; a failed `FC_ASSERT`
  is an `fc_exception` that carries the source line of the assertion.  `do_apply`
  returns its result together with the database as it stands when it returns, so that
  the effects made before a failure stay visible.
* The chain is a sequence of steps, accepted operations and new head block times; the
  constant `HARDFORK_music_contract_TIME` and the conversion of an account identifier
  to `bool`, which the dispute evaluator uses and which are not among the sources, are
  parameters.
-/

namespace graphene.chain

/-! ## Protocol types -/

abbrev account_id_type := Nat
abbrev asset_id_type := Nat
abbrev object_id_type := Nat
abbrev share_type := Int
abbrev time_point_sec := Nat

/-- An `asset`: a quantity `amount` of the asset type `asset_id`. -/
structure asset where
  amount : share_type := 0
  asset_id : asset_id_type := 0
deriving DecidableEq, Repr

namespace asset

/-- Modelled from the spec: `asset::operator+` (protocol/asset.hpp is not among the
sources); quantities add up, the asset type is that of the left operand. -/
def add (a b : asset) : asset := { amount := a.amount + b.amount, asset_id := a.asset_id }

/-- Modelled from the spec: `asset::operator-=` / binary minus (protocol/asset.hpp is not
among the sources); quantities are subtracted, the asset type is kept. -/
def sub (a b : asset) : asset := { amount := a.amount - b.amount, asset_id := a.asset_id }

/-- Modelled from the spec: unary minus of an `asset` (a debit for `adjust_balance`). -/
def neg (a : asset) : asset := { amount := -a.amount, asset_id := a.asset_id }

/-- Modelled from the spec: `asset::operator>=` (protocol/asset.hpp is not among the
sources); it compares the quantities. -/
def ge (a b : asset) : Bool := decide (b.amount ≤ a.amount)

end asset

/-- The failure of an evaluator: a lookup that found nothing, the `FC_ASSERT` at the
given line of `music_contract_evaluator.cpp`, or an insertion into the store that a
unique index refused. -/
inductive fc_exception where
  | not_found
  | assert_failed (line : Nat)
  | uniqueness_violated
deriving DecidableEq, Repr

/-- `FC_ASSERT( cond )` at source line `line`. -/
def FC_ASSERT (cond : Bool) (line : Nat) : Except fc_exception Unit :=
  if cond then Except.ok () else Except.error (fc_exception.assert_failed line)

/-! ## The contract object (`music_contract_object.hpp`) -/

/-- The class `music_contract_object`.  `id` is the object identity inherited from
`graphene::db::object`.  The class declares one musician-side approval flag, `signed`;
the name `musician_approved` used by `FC_REFLECT_DERIVED` and by the approve evaluator
denotes the same flag. -/
structure music_contract_object where
  id : object_id_type := 0
  contract_id : Nat := 10
  producer : account_id_type := 0
  musician : account_id_type := 0
  agent : account_id_type := 0
  amount : asset := {}
  ratification_deadline : time_point_sec := 0
  contract_expiration : time_point_sec := 0
  pending_fee : asset := {}
  signed : Bool := false
  agent_approved : Bool := false
  disputed : Bool := false
deriving DecidableEq, Repr

/-- The member function `is_approved`. -/
def music_contract_object.is_approved (c : music_contract_object) : Bool :=
  c.signed && c.agent_approved

/-! ## Operations (`protocol/music_contract.hpp`)

The evaluators read the identifier and the expiration of an operation as
`o.contract_id` and `o.contract_expiration`; the fields carry these names here. -/

structure music_contract_transfer_operation where
  fee : asset := {}
  producer : account_id_type := 0
  musician : account_id_type := 0
  amount : asset := {}
  contract_id : Nat := 0
  agent : account_id_type := 0
  agent_fee : asset := {}
  ratification_deadline : time_point_sec := 0
  contract_expiration : time_point_sec := 0
deriving DecidableEq, Repr

structure music_contract_approve_operation where
  fee : asset := {}
  producer : account_id_type := 0
  musician : account_id_type := 0
  agent : account_id_type := 0
  who : account_id_type := 0
  contract_id : Nat := 0
  approve : Bool := false
deriving DecidableEq, Repr

structure music_contract_dispute_operation where
  fee : asset := {}
  producer : account_id_type := 0
  musician : account_id_type := 0
  agent : account_id_type := 0
  contract_id : Nat := 0
  who : account_id_type := 0
deriving DecidableEq, Repr

structure music_contract_release_operation where
  fee : asset := {}
  producer : account_id_type := 0
  musician : account_id_type := 0
  agent : account_id_type := 0
  who : account_id_type := 0
  receiver : account_id_type := 0
  contract_id : Nat := 0
  amount : asset := {}
deriving DecidableEq, Repr

/-! ## The database the evaluators run against -/

/-- The part of `database` the evaluators use: the head block time, the account
balances per asset type, the contract store and the next free object identity. -/
structure database where
  head_block_time : time_point_sec := 0
  balances : account_id_type → asset_id_type → share_type := fun _ _ => 0
  contracts : List music_contract_object := []
  next_id : object_id_type := 0

namespace database

/-- Modelled from the spec: `get_balance(account, asset_type) -> quantity`
(database.hpp is not among the sources). -/
def get_balance (db : database) (owner : account_id_type) (a : asset_id_type) : asset :=
  { amount := db.balances owner a, asset_id := a }

/-- Modelled from the spec: `adjust_balance(account, signed_amount)`, an atomic
credit/debit where a negative amount is a debit (database.hpp is not among the
sources). -/
def adjust_balance (db : database) (owner : account_id_type) (delta : asset) : database :=
  { db with balances := fun acc a =>
      if acc = owner ∧ a = delta.asset_id then db.balances acc a + delta.amount
      else db.balances acc a }

/-- Modelled from the spec: `lookup_contract(producer, contract_id) -> ContractRecord |
NotFound`, the lookup in the `by_producer_id` index (database.hpp is not among the
sources). -/
def get_music_contract (db : database) (producer : account_id_type) (contract_id : Nat) :
    Except fc_exception music_contract_object :=
  match db.contracts.find? (fun c => c.producer == producer && c.contract_id == contract_id) with
  | some c => Except.ok c
  | none => Except.error fc_exception.not_found

/-- The keys of the two composite `ordered_unique` indices of
`music_contract_object_index_type` (music_contract_object.hpp, lines 65-78) clash:
`x` and `y` have the same `by_producer_id` key (`producer`, `contract_id`) or the same
`by_ratification_deadline` key (`is_approved()`, `ratification_deadline`,
`contract_id`). -/
def unique_key_clash (x y : music_contract_object) : Bool :=
  (x.producer == y.producer && x.contract_id == y.contract_id) ||
  (x.is_approved == y.is_approved && x.ratification_deadline == y.ratification_deadline
    && x.contract_id == y.contract_id)

/-- Modelled from the spec: `create_contract(initializer) -> ContractRecord`; it
allocates the identity, runs the initializer on a default-constructed object and
inserts the object into the store (db/generic_index.hpp is not among the sources).
The insertion fails when the key of the new object in one of the two composite
`ordered_unique` indices is that of a stored object; the identity, the key of `by_id`,
is the next one the store allocates. -/
def create (db : database) (init : music_contract_object → music_contract_object) :
    Except fc_exception (music_contract_object × database) :=
  let obj : music_contract_object := { init {} with id := db.next_id }
  if db.contracts.any (fun x => unique_key_clash x obj) then
    Except.error fc_exception.uniqueness_violated
  else
    Except.ok (obj, { db with contracts := db.contracts ++ [obj], next_id := db.next_id + 1 })

/-- Modelled from the spec: `modify_contract(record, mutator)`, the in-place update of
the object with the identity of `obj` (db/generic_index.hpp is not among the sources). -/
def modify (db : database) (obj : music_contract_object)
    (m : music_contract_object → music_contract_object) : database :=
  { db with contracts := db.contracts.map (fun c => if c.id = obj.id then m c else c) }

/-- Modelled from the spec: `remove_contract(record)`, which deletes the object with the
identity of `obj` from the store (db/generic_index.hpp is not among the sources). -/
def remove (db : database) (obj : music_contract_object) : database :=
  { db with contracts := db.contracts.filter (fun c => decide (c.id ≠ obj.id)) }

end database

/-! ## `music_contract_release_evaluator` -/

namespace music_contract_release_evaluator

/-- `music_contract_release_evaluator::do_evaluate` (lines 163-198). -/
def do_evaluate (db : database) (o : music_contract_release_operation) :
    Except fc_exception Unit := do
  let c ← db.get_music_contract o.producer o.contract_id
  FC_ASSERT (asset.ge c.amount o.amount && c.amount.asset_id == o.amount.asset_id) 167
  FC_ASSERT (decide (o.amount.amount > 0) && decide (c.amount.amount > 0)) 168
  FC_ASSERT (c.musician == o.musician) 169
  FC_ASSERT (c.agent == o.agent) 170
  FC_ASSERT (o.receiver == c.musician || o.receiver == c.musician) 171
  FC_ASSERT (c.signed && c.agent_approved) 172
  if c.disputed then
    FC_ASSERT (o.who == c.agent) 177
  else
    FC_ASSERT (o.who == c.musician || o.who == c.musician) 181
    if c.contract_expiration > db.head_block_time then
      if o.who == c.musician then
        FC_ASSERT (o.receiver == c.musician) 188
      else if o.who == c.musician then
        FC_ASSERT (o.receiver == c.producer) 192
  return ()

/-- `music_contract_release_evaluator::do_apply` (lines 200-219).  The reference `c`
denotes the stored object, so after `modify` it reads the decremented amount. -/
def do_apply (db : database) (o : music_contract_release_operation) :
    Except fc_exception Unit × database :=
  match db.get_music_contract o.producer o.contract_id with
  | Except.error e => (Except.error e, db)
  | Except.ok c =>
    let db1 := db.adjust_balance o.receiver o.amount
    let m : music_contract_object → music_contract_object :=
      fun ctr => { ctr with amount := ctr.amount.sub o.amount }
    let db2 := db1.modify c m
    let c := m c
    if c.amount.amount = 0 then
      (Except.ok (), db2.remove c)
    else
      (Except.ok (), db2)

/-- The evaluator as the operation processor runs it: `do_evaluate`, and `do_apply`
only when the evaluation passed. -/
def evaluate (db : database) (o : music_contract_release_operation) :
    Except fc_exception Unit × database :=
  match do_evaluate db o with
  | Except.error e => (Except.error e, db)
  | Except.ok _ => do_apply db o

end music_contract_release_evaluator

/-! ## `music_contract_transfer_evaluator` -/

namespace music_contract_transfer_evaluator

/-- `music_contract_transfer_evaluator::do_evaluate` (lines 31-40); `asset_id_type()`,
the core asset, is `0`. -/
def do_evaluate (db : database) (o : music_contract_transfer_operation) :
    Except fc_exception Unit := do
  FC_ASSERT (decide (o.ratification_deadline > db.head_block_time)) 34
  FC_ASSERT (decide (o.contract_expiration > db.head_block_time)) 35
  if o.amount.asset_id == (0 : asset_id_type) then
    FC_ASSERT (asset.ge (db.get_balance o.producer o.amount.asset_id)
      ((o.amount.add o.fee).add o.agent_fee)) 37
  return ()

/-- The initializer that `do_apply` hands to `create` (lines 54-61), assignment by
assignment; line 55 assigns `o.producer` to `ctr.musician` and line 56 overwrites it,
and no assignment is made to `ctr.producer`. -/
def init_contract (o : music_contract_transfer_operation) (ctr : music_contract_object) :
    music_contract_object :=
  let ctr := { ctr with contract_id := o.contract_id }
  let ctr := { ctr with musician := o.producer }
  let ctr := { ctr with musician := o.musician }
  let ctr := { ctr with agent := o.agent }
  let ctr := { ctr with amount := o.amount }
  let ctr := { ctr with pending_fee := o.agent_fee }
  let ctr := { ctr with ratification_deadline := o.ratification_deadline }
  let ctr := { ctr with contract_expiration := o.contract_expiration }
  ctr

/-- `music_contract_transfer_evaluator::do_apply` (lines 42-66). -/
def do_apply (db : database) (o : music_contract_transfer_operation) :
    Except fc_exception object_id_type × database :=
  let db1 :=
    if o.agent_fee.amount > 0 then
      (db.adjust_balance o.producer o.agent_fee.neg).adjust_balance o.agent o.agent_fee
    else db
  let db2 := db1.adjust_balance o.producer o.amount.neg
  match db2.create (init_contract o) with
  | Except.error e => (Except.error e, db2)
  | Except.ok (ctr, db3) => (Except.ok ctr.id, db3)

/-- The evaluator as the operation processor runs it: `do_evaluate`, and `do_apply`
only when the evaluation passed. -/
def evaluate (db : database) (o : music_contract_transfer_operation) :
    Except fc_exception object_id_type × database :=
  match do_evaluate db o with
  | Except.error e => (Except.error e, db)
  | Except.ok _ => do_apply db o

end music_contract_transfer_evaluator

/-! ## `music_contract_approve_evaluator` -/

namespace music_contract_approve_evaluator

/-- `music_contract_approve_evaluator::do_evaluate` (lines 68-74). -/
def do_evaluate (db : database) (o : music_contract_approve_operation) :
    Except fc_exception Unit := do
  let music_contract ← db.get_music_contract o.producer o.contract_id
  FC_ASSERT (music_contract.musician == o.musician) 71
  FC_ASSERT (music_contract.agent == o.agent) 72
  FC_ASSERT (decide (music_contract.ratification_deadline ≥ db.head_block_time)) 73
  return ()

/-- Lines 84-111 of `do_apply`: the branch on `o.who` with its assertions and the
setting of the approval flag.  It yields the stored object as the reference
`music_contract` reads it afterwards, and the database; the assertions come before any
`modify`.  `musician_approved` on line 86 is the flag `signed`. -/
def set_approval (db : database) (o : music_contract_approve_operation)
    (music_contract : music_contract_object) :
    Except fc_exception (music_contract_object × database) :=
  let reject_music_contract := !o.approve
  if o.who == o.musician then do
    FC_ASSERT (!music_contract.signed) 86
    if !reject_music_contract then
      pure ({ music_contract with signed := true },
        db.modify music_contract (fun ctr => { ctr with signed := true }))
    else
      pure (music_contract, db)
  else if o.who == o.agent then do
    FC_ASSERT (!music_contract.agent_approved) 98
    if !reject_music_contract then
      pure ({ music_contract with agent_approved := true },
        db.modify music_contract (fun ctr => { ctr with agent_approved := true }))
    else
      pure (music_contract, db)
  else
    Except.error (fc_exception.assert_failed 110)

/-- `music_contract_approve_evaluator::do_apply` (lines 76-132). -/
def do_apply (db : database) (o : music_contract_approve_operation) :
    Except fc_exception Unit × database :=
  match db.get_music_contract o.producer o.contract_id with
  | Except.error e => (Except.error e, db)
  | Except.ok music_contract =>
    let reject_music_contract := !o.approve
    match set_approval db o music_contract with
    | Except.error e => (Except.error e, db)
    | Except.ok (music_contract, db1) =>
      if reject_music_contract then
        let db2 := db1.adjust_balance o.producer music_contract.amount
        let db3 := db2.adjust_balance o.producer music_contract.pending_fee
        (Except.ok (), db3.remove music_contract)
      else if music_contract.signed && music_contract.agent_approved then
        let db2 := db1.adjust_balance o.agent music_contract.pending_fee
        (Except.ok (), db2.modify music_contract
          (fun ctr => { ctr with pending_fee := { ctr.pending_fee with amount := 0 } }))
      else
        (Except.ok (), db1)

/-- The evaluator as the operation processor runs it: `do_evaluate`, and `do_apply`
only when the evaluation passed. -/
def evaluate (db : database) (o : music_contract_approve_operation) :
    Except fc_exception Unit × database :=
  match do_evaluate db o with
  | Except.error e => (Except.error e, db)
  | Except.ok _ => do_apply db o

end music_contract_approve_evaluator

/-! ## `music_contract_dispute_evaluator`

Two things the evaluator uses are not among the sources and are parameters here: the
constant `HARDFORK_music_contract_TIME` (hardfork.hpp), and the conversion that line 138
applies to the account identifier `c.musician` when it uses it as the left operand of
`&&` (protocol/types.hpp). -/

namespace music_contract_dispute_evaluator

/-- `music_contract_dispute_evaluator::do_evaluate` (lines 134-144).  Line 138 tests
`c.musician && c.agent_approved`: the account identifier, not the flag `signed`.
Line 139 names the object `e`; no `e` is declared, the object looked up on line 136
is meant. -/
def do_evaluate (account_id_to_bool : account_id_type → Bool) (db : database)
    (o : music_contract_dispute_operation) : Except fc_exception Unit := do
  let c ← db.get_music_contract o.producer o.contract_id
  FC_ASSERT (account_id_to_bool c.musician && c.agent_approved) 138
  FC_ASSERT (!c.disputed) 139
  FC_ASSERT (c.musician == o.musician) 140
  FC_ASSERT (c.agent == o.agent) 141
  return ()

/-- `music_contract_dispute_evaluator::do_apply` (lines 146-161). -/
def do_apply (HARDFORK_music_contract_TIME : time_point_sec) (db : database)
    (o : music_contract_dispute_operation) : Except fc_exception Unit × database :=
  match FC_ASSERT (decide (db.head_block_time > HARDFORK_music_contract_TIME)) 149 with
  | Except.error e => (Except.error e, db)
  | Except.ok _ =>
    match db.get_music_contract o.producer o.contract_id with
    | Except.error e => (Except.error e, db)
    | Except.ok c =>
      (Except.ok (), db.modify c (fun ctr => { ctr with disputed := true }))

/-- The evaluator as the operation processor runs it: `do_evaluate`, and `do_apply`
only when the evaluation passed. -/
def evaluate (HARDFORK_music_contract_TIME : time_point_sec)
    (account_id_to_bool : account_id_type → Bool) (db : database)
    (o : music_contract_dispute_operation) : Except fc_exception Unit × database :=
  match do_evaluate account_id_to_bool db o with
  | Except.error e => (Except.error e, db)
  | Except.ok _ => do_apply HARDFORK_music_contract_TIME db o

end music_contract_dispute_evaluator

/-- An account identifier read as a truth value the way C++ reads an integral value:
true when the instance number is not zero. -/
def account_id_nonzero (a : account_id_type) : Bool := a != 0

/-! ## The four operations as steps of the chain -/

/-- One of the four music contract operations. -/
inductive operation where
  | transfer (o : music_contract_transfer_operation)
  | approve (o : music_contract_approve_operation)
  | dispute (o : music_contract_dispute_operation)
  | release (o : music_contract_release_operation)

/-- Runs the evaluator of an operation; the result of a transfer, the identity of the
new object, is dropped. -/
def apply_operation (HARDFORK_music_contract_TIME : time_point_sec)
    (account_id_to_bool : account_id_type → Bool) (db : database) :
    operation → Except fc_exception Unit × database
  | operation.transfer o =>
    match music_contract_transfer_evaluator.evaluate db o with
    | (Except.ok _, db1) => (Except.ok (), db1)
    | (Except.error e, db1) => (Except.error e, db1)
  | operation.approve o => music_contract_approve_evaluator.evaluate db o
  | operation.dispute o =>
    music_contract_dispute_evaluator.evaluate HARDFORK_music_contract_TIME
      account_id_to_bool db o
  | operation.release o => music_contract_release_evaluator.evaluate db o

/-- A step of the chain: an operation, or a new head block time. -/
inductive chain_step where
  | op (o : operation)
  | new_block (t : time_point_sec)

/-- Runs a sequence of steps: every operation has to be accepted and the head block
time may not go back; `none` otherwise. -/
def run (HARDFORK_music_contract_TIME : time_point_sec)
    (account_id_to_bool : account_id_type → Bool) :
    database → List chain_step → Option database
  | db, [] => some db
  | db, chain_step.op o :: rest =>
    match (apply_operation HARDFORK_music_contract_TIME account_id_to_bool db o).1 with
    | Except.ok _ =>
      run HARDFORK_music_contract_TIME account_id_to_bool
        (apply_operation HARDFORK_music_contract_TIME account_id_to_bool db o).2 rest
    | Except.error _ => none
  | db, chain_step.new_block t :: rest =>
    if db.head_block_time ≤ t then
      run HARDFORK_music_contract_TIME account_id_to_bool { db with head_block_time := t } rest
    else none

/-- The `by_id` index is `ordered_unique` on the object identity, and identities are
handed out in increasing order: no two stored objects share one and each is below the
next free identity. -/
def database.by_id_unique (db : database) : Prop :=
  (db.contracts.map (fun c => c.id)).Nodup ∧ ∀ c ∈ db.contracts, c.id < db.next_id

/-- How one accepted operation may change a stored object `x` into `y`: the identity
and the lookup key stay; a flag that is set stays set; the amount stays or goes down to
a smaller positive quantity; the pending fee and the approval state stay, or the
object becomes fully approved and its pending fee becomes 0. -/
def music_contract_object.evolves (x y : music_contract_object) : Prop :=
  y.id = x.id ∧ y.producer = x.producer ∧ y.contract_id = x.contract_id ∧
  (x.signed = true → y.signed = true) ∧
  (x.agent_approved = true → y.agent_approved = true) ∧
  (x.disputed = true → y.disputed = true) ∧
  (y.amount.amount = x.amount.amount ∨
    (0 < y.amount.amount ∧ y.amount.amount < x.amount.amount)) ∧
  ((y.pending_fee = x.pending_fee ∧ y.is_approved = x.is_approved) ∨
    (x.is_approved = false ∧ y.is_approved = true ∧ y.pending_fee.amount = 0))

/-! ## Sequences of releases and the `by_producer_id` index -/

/-- The `by_producer_id` index of `music_contract_object_index_type` is `ordered_unique`
on the composite key (`producer`, `contract_id`): no two stored objects share it. -/
def database.by_producer_id_unique (db : database) : Prop :=
  (db.contracts.map (fun c => (c.producer, c.contract_id))).Nodup

/-- Runs the release evaluator on the operations in order; `none` as soon as one of
them is rejected, the final database when all are accepted. -/
def apply_releases : database → List music_contract_release_operation → Option database
  | db, [] => some db
  | db, o :: os =>
    match (music_contract_release_evaluator.evaluate db o).1 with
    | Except.ok _ => apply_releases (music_contract_release_evaluator.evaluate db o).2 os
    | Except.error _ => none

/-- The quantities credited by a list of releases, summed. -/
def released_total (os : List music_contract_release_operation) : share_type :=
  (os.map (fun o => o.amount.amount)).sum

/-- The quantity of asset `a` the releases of a list credit to account `acc`. -/
def credited_to (os : List music_contract_release_operation) (acc : account_id_type)
    (a : asset_id_type) : share_type :=
  released_total (os.filter (fun o => decide (o.receiver = acc ∧ o.amount.asset_id = a)))

/-! ## Concrete states used to evaluate the evaluators

The accounts are producer `0`, musician `1` and agent `2`; the contract has identifier
`1`, holds `100` units of the core asset, must be ratified by time `3600` and expires
at time `86400`. -/

/-- A fully approved, undisputed record holding 100 units. -/
def approved_record : music_contract_object :=
  { id := 0, contract_id := 1, producer := 0, musician := 1, agent := 2,
    amount := { amount := 100, asset_id := 0 },
    ratification_deadline := 3600, contract_expiration := 86400,
    pending_fee := { amount := 0, asset_id := 0 },
    signed := true, agent_approved := true, disputed := false }

/-- A store with the approved record, before the contract expires. -/
def approved_db : database :=
  { head_block_time := 4000, contracts := [approved_record], next_id := 1 }

/-- A store with the approved record, after the contract has expired. -/
def expired_db : database :=
  { head_block_time := 90000, contracts := [approved_record], next_id := 1 }

/-- The approved record under dispute. -/
def disputed_record : music_contract_object :=
  { approved_record with disputed := true }

/-- A store with the approved record under dispute. -/
def disputed_db : database :=
  { head_block_time := 4000, contracts := [disputed_record], next_id := 1 }

/-- A record that has the approval of the musician only; the fee of 5 is pending. -/
def half_approved_record : music_contract_object :=
  { approved_record with agent_approved := false,
                         pending_fee := { amount := 5, asset_id := 0 } }

/-- A store whose record has the approval of the musician only. -/
def half_approved_db : database :=
  { head_block_time := 1000, contracts := [half_approved_record], next_id := 1 }

/-- A release of `q` units of the core asset by `who` to `receiver` on contract `1`. -/
def release_op (who receiver : account_id_type) (q : share_type) :
    music_contract_release_operation :=
  { producer := 0, musician := 1, agent := 2, who := who, receiver := receiver,
    contract_id := 1, amount := { amount := q, asset_id := 0 } }

/-- An empty store at time 0 in which the producer (account 0) owns 1000 units of the
core asset. -/
def funded_db : database :=
  { head_block_time := 0,
    balances := fun acc a => if acc = 0 ∧ a = 0 then 1000 else 0 }

/-- The transfer that opens contract `1`: 100 units in escrow, an agent fee of 5 and an
operation fee of 1, all in the core asset. -/
def open_op : music_contract_transfer_operation :=
  { fee := { amount := 1, asset_id := 0 }, producer := 0, musician := 1,
    amount := { amount := 100, asset_id := 0 }, contract_id := 1, agent := 2,
    agent_fee := { amount := 5, asset_id := 0 },
    ratification_deadline := 3600, contract_expiration := 86400 }

/-- The record as the transfer `open_op` leaves it: no approval yet, the fee of 5
pending. -/
def pending_record : music_contract_object :=
  { approved_record with signed := false, agent_approved := false,
                         pending_fee := { amount := 5, asset_id := 0 } }

/-- A store with the record that nobody has approved yet. -/
def pending_db : database :=
  { head_block_time := 1000, contracts := [pending_record], next_id := 1 }

/-- A record that has the approval of the agent only; the fee of 5 is pending. -/
def agent_approved_record : music_contract_object :=
  { approved_record with signed := false,
                         pending_fee := { amount := 5, asset_id := 0 } }

/-- A store whose record has the approval of the agent only. -/
def agent_approved_db : database :=
  { head_block_time := 1000, contracts := [agent_approved_record], next_id := 1 }

/-- An approval (`approve = true`) or rejection by `who` of contract `1`. -/
def approve_op (who : account_id_type) (approve : Bool) : music_contract_approve_operation :=
  { producer := 0, musician := 1, agent := 2, who := who, contract_id := 1,
    approve := approve }

/-- A dispute raised by `who` on contract `1`. -/
def dispute_op (who : account_id_type) : music_contract_dispute_operation :=
  { producer := 0, musician := 1, agent := 2, contract_id := 1, who := who }

/-- An empty store at time 0 in which every account owns 1000 units of every asset. -/
def rich_db : database :=
  { head_block_time := 0, balances := fun _ _ => 1000 }

/-- The transfer `open_op`, sent by the account `producer`. -/
def open_by (producer : account_id_type) : music_contract_transfer_operation :=
  { open_op with producer := producer }

/-- A store with the unapproved record at the very time of its ratification deadline. -/
def deadline_db : database :=
  { head_block_time := 3600, contracts := [pending_record], next_id := 1 }

/-- A store with the unapproved record one second after its ratification deadline. -/
def late_db : database :=
  { head_block_time := 3601, contracts := [pending_record], next_id := 1 }

/-- The record with both approvals whose fee of 5 is still recorded as pending: the
record `agent_approved_record` with `signed` set. -/
def signed_agent_approved_record : music_contract_object :=
  { agent_approved_record with signed := true }

/-- A store with the record `signed_agent_approved_record`. -/
def signed_agent_approved_db : database :=
  { head_block_time := 1000, contracts := [signed_agent_approved_record], next_id := 1 }

/-- The agent-approved record after a dispute. -/
def disputed_unsigned_record : music_contract_object :=
  { agent_approved_record with disputed := true }

/-- The transfer `open_op` with an escrowed amount of `q` units. -/
def open_with_amount (q : share_type) : music_contract_transfer_operation :=
  { open_op with amount := { amount := q, asset_id := 0 } }

/-- The steps of the scenario: the producer opens contract `1` with 100 in escrow and
a fee of 5, the musician and the agent approve, the musician releases 40. -/
def scenario_steps : List chain_step :=
  [chain_step.op (operation.transfer open_op),
   chain_step.op (operation.approve (approve_op 1 true)),
   chain_step.op (operation.approve (approve_op 2 true)),
   chain_step.op (operation.release (release_op 1 1 40))]

/-- The database the scenario leaves when it starts from `funded_db`. -/
def scenario_db : database :=
  (music_contract_release_evaluator.evaluate
    (music_contract_approve_evaluator.evaluate
      (music_contract_approve_evaluator.evaluate
        (music_contract_transfer_evaluator.evaluate funded_db open_op).2
        (approve_op 1 true)).2
      (approve_op 2 true)).2
    (release_op 1 1 40)).2

/-- The steps that lead to a disputed record without the approval of the musician:
open, approval by the agent, a later block, dispute by the musician. -/
def early_dispute_steps : List chain_step :=
  [chain_step.op (operation.transfer open_op),
   chain_step.op (operation.approve (approve_op 2 true)),
   chain_step.new_block 1000,
   chain_step.op (operation.dispute (dispute_op 1))]

/-- The funds of asset `a` that the records of the store hold: the amounts and the
pending fees. -/
def database.held (db : database) (a : asset_id_type) : share_type :=
  (db.contracts.map (fun c =>
    (if c.amount.asset_id = a then c.amount.amount else 0)
      + (if c.pending_fee.asset_id = a then c.pending_fee.amount else 0))).sum

/-- The balances in asset `a` of the listed accounts, summed. -/
def database.balance_sum (db : database) (accounts : List account_id_type)
    (a : asset_id_type) : share_type :=
  (accounts.map (fun acc => db.balances acc a)).sum

/-- The funds of asset `a`: the balances of the listed accounts and what the records
hold. -/
def database.total_funds (db : database) (accounts : List account_id_type)
    (a : asset_id_type) : share_type :=
  db.balance_sum accounts a + db.held a

/-- The database after the transfer `open_op` on `funded_db`. -/
def opened_db : database :=
  (music_contract_transfer_evaluator.evaluate funded_db open_op).2

/-- The database after the transfer `open_op` and the rejection by the musician. -/
def rejected_db : database :=
  (music_contract_approve_evaluator.evaluate opened_db (approve_op 1 false)).2

/-- The database after the transfer `open_op` and the approvals of the musician and of
the agent. -/
def ratified_db : database :=
  (music_contract_approve_evaluator.evaluate
    (music_contract_approve_evaluator.evaluate opened_db (approve_op 1 true)).2
    (approve_op 2 true)).2

/-- A store whose record has the approval of the agent only, after the ratification
deadline 3600 has passed. -/
def late_agent_approved_db : database :=
  { head_block_time := 4000, contracts := [agent_approved_record], next_id := 1 }

/-- The transfer `open_op` with the account `agent` as its agent. -/
def open_with_agent (agent : account_id_type) : music_contract_transfer_operation :=
  { open_op with agent := agent }

/-- The transfer `open_op` with an agent fee of `q` units of the core asset. -/
def open_with_agent_fee (q : share_type) : music_contract_transfer_operation :=
  { open_op with agent_fee := { amount := q, asset_id := 0 } }

/-- The database after the transfer that names account 1, the musician, as the agent
too. -/
def musician_agent_db : database :=
  (music_contract_transfer_evaluator.evaluate funded_db (open_with_agent 1)).2

/-- The approval of contract `1` by account 1, which the operation names as musician
and as agent. -/
def approve_by_musician_agent : music_contract_approve_operation :=
  { approve_op 1 true with agent := 1 }

/-- The database after the transfer with an agent fee of -5 and the approval of the
musician. -/
def negative_fee_db : database :=
  (music_contract_approve_evaluator.evaluate
    (music_contract_transfer_evaluator.evaluate funded_db (open_with_agent_fee (-5))).2
    (approve_op 1 true)).2

/-! ## Lemmas on the store and on `FC_ASSERT` -/

theorem find?_map_of_invariant {α : Type} (p : α → Bool) (f : α → α)
    (hf : ∀ x, p (f x) = p x) (l : List α) :
    (l.map f).find? p = (l.find? p).map f := by
  induction l with
  | nil => rfl
  | cons x xs ih =>
    simp only [List.map_cons, List.find?_cons, hf]
    cases p x <;> simp [ih]

theorem filter_map_modify (l : List music_contract_object) (i : object_id_type)
    (m : music_contract_object → music_contract_object) (hm : ∀ x, (m x).id = x.id) :
    (l.map (fun c => if c.id = i then m c else c)).filter (fun c => decide (c.id ≠ i))
      = l.filter (fun c => decide (c.id ≠ i)) := by
  induction l with
  | nil => rfl
  | cons x xs ih =>
    by_cases hx : x.id = i
    · simp only [List.map_cons, hx, if_true, List.filter_cons, hm, ne_eq, not_true_eq_false,
        decide_False, Bool.false_eq_true, if_false]
      exact ih
    · simp only [List.map_cons, hx, if_false, List.filter_cons, ne_eq, not_false_eq_true,
        decide_True, if_true]
      rw [ih]

namespace database

theorem get_music_contract_ok_iff (db : database) (p : account_id_type) (k : Nat)
    (c : music_contract_object) :
    db.get_music_contract p k = Except.ok c ↔
      db.contracts.find? (fun c => c.producer == p && c.contract_id == k) = some c := by
  unfold get_music_contract
  cases db.contracts.find? (fun c => c.producer == p && c.contract_id == k) <;> simp

theorem get_music_contract_key (db : database) (p : account_id_type) (k : Nat)
    (c : music_contract_object) (h : db.get_music_contract p k = Except.ok c) :
    c.producer = p ∧ c.contract_id = k ∧ c ∈ db.contracts := by
  rw [get_music_contract_ok_iff] at h
  have h1 := List.find?_some h
  have h2 := List.mem_of_find?_eq_some h
  simp at h1
  exact ⟨h1.1, h1.2, h2⟩

end database

namespace database

/-- After an update that keeps `producer` and `contract_id`, the lookup finds the
updated object. -/
theorem get_music_contract_map (db : database) (p : account_id_type) (k : Nat)
    (c : music_contract_object) (f : music_contract_object → music_contract_object)
    (l : List music_contract_object)
    (hf : ∀ x, (f x).producer = x.producer ∧ (f x).contract_id = x.contract_id)
    (hl : l = db.contracts.map f)
    (hc : db.get_music_contract p k = Except.ok c) (db1 : database)
    (h1 : db1.contracts = l) :
    db1.get_music_contract p k = Except.ok (f c) := by
  rw [get_music_contract_ok_iff] at hc ⊢
  rw [h1, hl, find?_map_of_invariant _ f (fun x => by simp [(hf x).1, (hf x).2]), hc]
  rfl

/-- Under the uniqueness of the `by_producer_id` key, the lookup fails once the object
it found has been removed. -/
theorem get_music_contract_filter (db : database) (p : account_id_type) (k : Nat)
    (c : music_contract_object) (hu : db.by_producer_id_unique)
    (hc : db.get_music_contract p k = Except.ok c) (db1 : database)
    (h1 : db1.contracts = db.contracts.filter (fun x => decide (x.id ≠ c.id))) :
    db1.get_music_contract p k = Except.error fc_exception.not_found := by
  obtain ⟨hp, hk, hmem⟩ := get_music_contract_key db p k c hc
  have hnone : db1.contracts.find?
      (fun c => c.producer == p && c.contract_id == k) = none := by
    rw [List.find?_eq_none]
    intro x hx
    rw [h1, List.mem_filter] at hx
    intro hpx
    simp only [Bool.and_eq_true, beq_iff_eq] at hpx
    have hxc : x = c := by
      apply List.inj_on_of_nodup_map hu hx.1 hmem
      simp [hpx.1, hpx.2, hp, hk]
    simp [hxc] at hx
  simp [get_music_contract, hnone]

theorem by_producer_id_unique_map (db db1 : database)
    (f : music_contract_object → music_contract_object)
    (hf : ∀ x, (f x).producer = x.producer ∧ (f x).contract_id = x.contract_id)
    (hu : db.by_producer_id_unique) (h1 : db1.contracts = db.contracts.map f) :
    db1.by_producer_id_unique := by
  unfold by_producer_id_unique at hu ⊢
  rw [h1, List.map_map]
  have : ((fun c : music_contract_object => (c.producer, c.contract_id)) ∘ f)
      = (fun c : music_contract_object => (c.producer, c.contract_id)) := by
    funext x
    simp [(hf x).1, (hf x).2]
  rw [this]
  exact hu

end database

namespace music_contract_release_evaluator

theorem do_evaluate_ok_iff (db : database) (o : music_contract_release_operation) :
    do_evaluate db o = Except.ok () ↔
      ∃ c, db.get_music_contract o.producer o.contract_id = Except.ok c ∧
        o.amount.amount ≤ c.amount.amount ∧ c.amount.asset_id = o.amount.asset_id ∧
        0 < o.amount.amount ∧ c.musician = o.musician ∧ c.agent = o.agent ∧
        o.receiver = c.musician ∧ c.signed = true ∧ c.agent_approved = true ∧
        (if c.disputed = true then o.who = c.agent else o.who = c.musician) := by
  unfold do_evaluate
  cases hc : db.get_music_contract o.producer o.contract_id with
  | error e => simp [bind, Except.bind]
  | ok c =>
    simp only [bind, Except.bind, FC_ASSERT, asset.ge, pure, Except.pure]
    constructor
    · intro h
      refine ⟨c, rfl, ?_⟩
      split_ifs at h <;> simp_all
    · rintro ⟨c1, hc1, h1, h2, h3, h4, h5, h6, h7, h8, h9⟩
      cases hc1
      split_ifs <;> simp_all
      linarith

/-- A release is accepted when the evaluator returns without an exception; this is the
case exactly when `do_evaluate` passes. -/
theorem accepted_iff (db : database) (o : music_contract_release_operation) :
    (evaluate db o).1 = Except.ok () ↔ do_evaluate db o = Except.ok () := by
  unfold evaluate
  cases he : do_evaluate db o with
  | error e => simp
  | ok u =>
    obtain ⟨c, hc, -⟩ := (do_evaluate_ok_iff db o).1 he
    simp only [do_apply, hc]
    split_ifs <;> simp

/-- A release whose evaluation fails leaves the database as it was. -/
theorem evaluate_of_error (db : database) (o : music_contract_release_operation)
    (e : fc_exception) (h : do_evaluate db o = Except.error e) :
    evaluate db o = (Except.error e, db) := by
  simp [evaluate, h]

/-- The decrement that `do_apply` makes in the stored object. -/
theorem evaluate_of_ok (db : database) (o : music_contract_release_operation)
    (c : music_contract_object)
    (hc : db.get_music_contract o.producer o.contract_id = Except.ok c)
    (h : do_evaluate db o = Except.ok ()) :
    evaluate db o = (Except.ok (),
      if c.amount.amount - o.amount.amount = 0 then
        { db with
          balances := (db.adjust_balance o.receiver o.amount).balances
          contracts := db.contracts.filter (fun x => decide (x.id ≠ c.id)) }
      else
        { db with
          balances := (db.adjust_balance o.receiver o.amount).balances
          contracts := db.contracts.map (fun x => if x.id = c.id then
            { x with amount := { amount := x.amount.amount - o.amount.amount,
                                 asset_id := x.amount.asset_id } } else x) }) := by
  simp only [evaluate, h, do_apply, hc, asset.sub]
  split_ifs
  · simp only [database.remove, database.modify, database.adjust_balance]
    rw [filter_map_modify db.contracts c.id
      (fun x => { x with amount := { amount := x.amount.amount - o.amount.amount,
                                     asset_id := x.amount.asset_id } }) (fun _ => rfl)]
  · rfl

/-- One accepted release, seen through the lookup: the credit, and the state of the
addressed record afterwards. -/
theorem release_step (db : database) (o : music_contract_release_operation)
    (c : music_contract_object) (hu : db.by_producer_id_unique)
    (hc : db.get_music_contract o.producer o.contract_id = Except.ok c)
    (he : do_evaluate db o = Except.ok ()) :
    (∀ acc a, (evaluate db o).2.balances acc a = db.balances acc a +
        (if acc = o.receiver ∧ a = o.amount.asset_id then o.amount.amount else 0)) ∧
    (c.amount.amount - o.amount.amount = 0 →
      (evaluate db o).2.get_music_contract o.producer o.contract_id
        = Except.error fc_exception.not_found) ∧
    (c.amount.amount - o.amount.amount ≠ 0 →
      (evaluate db o).2.by_producer_id_unique ∧
      (evaluate db o).2.get_music_contract o.producer o.contract_id
        = Except.ok { c with amount := { amount := c.amount.amount - o.amount.amount,
                                         asset_id := c.amount.asset_id } }) := by
  rw [evaluate_of_ok db o c hc he]
  refine ⟨?_, ?_, ?_⟩
  · intro acc a
    split_ifs <;> simp_all [database.adjust_balance]
  · intro h0
    rw [if_pos h0]
    exact database.get_music_contract_filter db o.producer o.contract_id c hu hc _ rfl
  · intro h0
    rw [if_neg h0]
    have hf : ∀ x : music_contract_object,
        ((fun x : music_contract_object => if x.id = c.id then
          { x with amount := { amount := x.amount.amount - o.amount.amount,
                               asset_id := x.amount.asset_id } } else x) x).producer
          = x.producer ∧
        ((fun x : music_contract_object => if x.id = c.id then
          { x with amount := { amount := x.amount.amount - o.amount.amount,
                               asset_id := x.amount.asset_id } } else x) x).contract_id
          = x.contract_id := by
      intro x
      dsimp only
      split_ifs <;> exact ⟨rfl, rfl⟩
    refine ⟨database.by_producer_id_unique_map db _ _ hf hu rfl, ?_⟩
    rw [database.get_music_contract_map db o.producer o.contract_id c _ _ hf rfl hc _ rfl]
    simp

theorem not_ok_cases (r : Except fc_exception Unit) (h : r ≠ Except.ok ()) :
    ∃ e, r = Except.error e := by
  cases r with
  | error e => exact ⟨e, rfl⟩
  | ok u => exact absurd rfl h

end music_contract_release_evaluator

/-! ## Lemmas on sequences of releases -/

theorem released_total_cons (o : music_contract_release_operation)
    (os : List music_contract_release_operation) :
    released_total (o :: os) = o.amount.amount + released_total os := by
  simp [released_total]

theorem credited_to_cons (o : music_contract_release_operation)
    (os : List music_contract_release_operation) (acc : account_id_type)
    (a : asset_id_type) :
    credited_to (o :: os) acc a
      = (if acc = o.receiver ∧ a = o.amount.asset_id then o.amount.amount else 0)
        + credited_to os acc a := by
  unfold credited_to
  by_cases h : o.receiver = acc ∧ o.amount.asset_id = a
  · have h2 : acc = o.receiver ∧ a = o.amount.asset_id := ⟨h.1.symm, h.2.symm⟩
    rw [List.filter_cons_of_pos (by simpa using h), released_total_cons, if_pos h2]
  · have h2 : ¬ (acc = o.receiver ∧ a = o.amount.asset_id) :=
      fun h3 => h ⟨h3.1.symm, h3.2.symm⟩
    rw [List.filter_cons_of_neg (by simpa using h), if_neg h2, zero_add]

/-- A sequence of accepted releases can be cut after any prefix. -/
theorem apply_releases_append (os1 os2 : List music_contract_release_operation) :
    ∀ (db db2 : database), apply_releases db (os1 ++ os2) = some db2 →
      ∃ db1, apply_releases db os1 = some db1 ∧ apply_releases db1 os2 = some db2 := by
  induction os1 with
  | nil => intro db db2 h; exact ⟨db, rfl, h⟩
  | cons o t ih =>
    intro db db2 h
    simp only [List.cons_append, apply_releases] at h ⊢
    cases hr : (music_contract_release_evaluator.evaluate db o).1 with
    | error e => simp [hr] at h
    | ok u =>
      simp only [hr] at h ⊢
      exact ih _ _ h

/-- The state after a sequence of accepted releases addressed to one record. -/
theorem apply_releases_spec (p : account_id_type) (k : Nat) :
    ∀ (os : List music_contract_release_operation) (db db2 : database)
      (c : music_contract_object),
      db.by_producer_id_unique →
      db.get_music_contract p k = Except.ok c →
      0 < c.amount.amount →
      (∀ o ∈ os, o.producer = p ∧ o.contract_id = k) →
      apply_releases db os = some db2 →
      released_total os ≤ c.amount.amount ∧
      (∀ o ∈ os, o.amount.asset_id = c.amount.asset_id) ∧
      (∀ acc a, db2.balances acc a = db.balances acc a + credited_to os acc a) ∧
      (released_total os = c.amount.amount →
        db2.get_music_contract p k = Except.error fc_exception.not_found) ∧
      (released_total os ≠ c.amount.amount →
        db2.get_music_contract p k
          = Except.ok { c with amount := { amount := c.amount.amount - released_total os,
                                           asset_id := c.amount.asset_id } }) := by
  intro os
  induction os with
  | nil =>
    intro db db2 c _ hc hpos _ hrun
    simp only [apply_releases, Option.some.injEq] at hrun
    subst hrun
    refine ⟨by simpa [released_total] using hpos.le, by simp, ?_, ?_, ?_⟩
    · intro acc a
      simp [credited_to, released_total]
    · intro h
      simp only [released_total, List.map_nil, List.sum_nil] at h
      exact absurd hpos (by rw [← h]; exact lt_irrefl _)
    · intro _
      rw [hc]
      simp [released_total]
  | cons o t ih =>
    intro db db2 c hu hc hpos haddr hrun
    obtain ⟨hop, hok⟩ := haddr o (List.mem_cons_self _ _)
    have haddr_t : ∀ o1 ∈ t, o1.producer = p ∧ o1.contract_id = k :=
      fun o1 h1 => haddr o1 (List.mem_cons_of_mem _ h1)
    simp only [apply_releases] at hrun
    cases hr : (music_contract_release_evaluator.evaluate db o).1 with
    | error e => simp [hr] at hrun
    | ok u =>
      simp only [hr] at hrun
      have he := (music_contract_release_evaluator.accepted_iff db o).1 hr
      have hc0 : db.get_music_contract o.producer o.contract_id = Except.ok c := by
        rw [hop, hok]; exact hc
      obtain ⟨c1, hc1, hle, hasset, hapos, -⟩ :=
        (music_contract_release_evaluator.do_evaluate_ok_iff db o).1 he
      rw [hc0] at hc1
      cases hc1
      obtain ⟨hbal, hzero, hrest⟩ :=
        music_contract_release_evaluator.release_step db o c hu hc0 he
      rw [hop, hok] at hzero hrest
      by_cases h0 : c.amount.amount - o.amount.amount = 0
      · -- the record is gone: no further release can be accepted
        have hnf := hzero h0
        have ht : t = [] := by
          cases t with
          | nil => rfl
          | cons o2 t2 =>
            exfalso
            obtain ⟨hop2, hok2⟩ := haddr_t o2 (List.mem_cons_self _ _)
            simp only [apply_releases] at hrun
            cases hr2 : (music_contract_release_evaluator.evaluate
                (music_contract_release_evaluator.evaluate db o).2 o2).1 with
            | error e => simp [hr2] at hrun
            | ok u2 =>
              have he2 := (music_contract_release_evaluator.accepted_iff _ o2).1 hr2
              obtain ⟨c2, hc2, -⟩ :=
                (music_contract_release_evaluator.do_evaluate_ok_iff _ o2).1 he2
              rw [hop2, hok2, hnf] at hc2
              cases hc2
        subst ht
        simp only [apply_releases, Option.some.injEq] at hrun
        subst hrun
        have hsum : released_total [o] = c.amount.amount := by
          rw [released_total_cons]
          simp only [released_total, List.map_nil, List.sum_nil]
          linarith
        refine ⟨hsum.le, ?_, ?_, fun _ => hnf, fun h => absurd hsum h⟩
        · intro o1 h1
          rw [List.mem_singleton] at h1
          rw [h1, hasset]
        · intro acc a
          rw [hbal, credited_to_cons]
          simp [credited_to, released_total]
      · obtain ⟨hu1, hc1⟩ := hrest h0
        have hpos1 : 0 < c.amount.amount - o.amount.amount := by
          rcases lt_or_eq_of_le hle with h | h
          · linarith
          · exact absurd (by rw [h]; exact sub_self _) h0
        obtain ⟨ihle, ihasset, ihbal, ihzero, ihrest⟩ :=
          ih _ db2 _ hu1 hc1 hpos1 haddr_t hrun
        simp only at ihle ihasset ihzero ihrest
        refine ⟨?_, ?_, ?_, ?_, ?_⟩
        · rw [released_total_cons]; linarith
        · intro o1 h1
          rcases List.mem_cons.1 h1 with h | h
          · rw [h, hasset]
          · exact ihasset o1 h
        · intro acc a
          rw [ihbal, hbal, credited_to_cons, add_assoc]
        · intro h
          apply ihzero
          rw [released_total_cons] at h
          linarith
        · intro h
          rw [ihrest (fun h2 => h (by rw [released_total_cons]; linarith))]
          rw [released_total_cons]
          simp only [Except.ok.injEq]
          congr 2
          ring

/-- The credits of a list of releases in one asset, summed over a set of accounts
that holds every receiver, add up to the total released. -/
theorem sum_credited_to (a0 : asset_id_type) (S : Finset account_id_type) :
    ∀ (os : List music_contract_release_operation),
      (∀ o ∈ os, o.receiver ∈ S) → (∀ o ∈ os, o.amount.asset_id = a0) →
      S.sum (fun r => credited_to os r a0) = released_total os := by
  intro os
  induction os with
  | nil => intro _ _; simp [credited_to, released_total]
  | cons o t ih =>
    intro hS ha
    have h1 := ih (fun o1 h => hS o1 (List.mem_cons_of_mem _ h))
      (fun o1 h => ha o1 (List.mem_cons_of_mem _ h))
    have hmem := hS o (List.mem_cons_self _ _)
    have hao := ha o (List.mem_cons_self _ _)
    simp only [credited_to_cons, Finset.sum_add_distrib, h1, released_total_cons, hao,
      and_true]
    rw [Finset.sum_ite_eq' S o.receiver (fun _ => o.amount.amount), if_pos hmem]

/-! ## Release: approval, authorization and amount checks -/

/-- C1: a release addressed to a record that lacks the approval of the musician
(`signed`) or of the agent (`agent_approved`) fails, and the database, that is every
balance and every record, is the one before the operation. -/
theorem release_fails_before_full_approval (db : database)
    (o : music_contract_release_operation) (c : music_contract_object)
    (hc : db.get_music_contract o.producer o.contract_id = Except.ok c)
    (hna : c.signed = false ∨ c.agent_approved = false) :
    ∃ e, music_contract_release_evaluator.evaluate db o = (Except.error e, db) := by
  have hne : music_contract_release_evaluator.do_evaluate db o ≠ Except.ok () := by
    intro h
    obtain ⟨c1, hc1, -, -, -, -, -, -, hs, ha, -⟩ :=
      (music_contract_release_evaluator.do_evaluate_ok_iff db o).1 h
    rw [hc] at hc1
    cases hc1
    rcases hna with h1 | h1 <;> simp_all
  obtain ⟨e, he⟩ := music_contract_release_evaluator.not_ok_cases _ hne
  exact ⟨e, music_contract_release_evaluator.evaluate_of_error db o e he⟩

/-- Witness for C1: the record approved by the musician only; a release of 40 by the
musician fails and leaves the store as it was. -/
theorem release_fails_before_full_approval_witness :
    half_approved_db.get_music_contract 0 1 = Except.ok half_approved_record ∧
    half_approved_record.agent_approved = false ∧
    ∃ e, music_contract_release_evaluator.evaluate half_approved_db (release_op 1 1 40)
      = (Except.error e, half_approved_db) :=
  ⟨rfl, rfl, release_fails_before_full_approval half_approved_db (release_op 1 1 40)
    half_approved_record rfl (Or.inr rfl)⟩

/-- C2: on the approved, undisputed, unexpired record holding 100, the release of 40 by
the producer (account 0) to the musician (account 1) is rejected by the assertion of
line 181, and the release by the musician to the producer by the assertion of line 171;
the database is unchanged in both cases.  The only release the evaluator accepts from
the musician is one to the musician. -/
theorem release_counterparty_rejected :
    music_contract_release_evaluator.evaluate approved_db (release_op 0 1 40)
      = (Except.error (fc_exception.assert_failed 181), approved_db) ∧
    music_contract_release_evaluator.evaluate approved_db (release_op 1 0 40)
      = (Except.error (fc_exception.assert_failed 171), approved_db) ∧
    (music_contract_release_evaluator.evaluate approved_db (release_op 1 1 40)).1
      = Except.ok () :=
  ⟨rfl, rfl, rfl⟩

/-- C3: the receiver check of line 171 rejects the producer: on the approved, expired,
undisputed record a release by the musician (account 1) to the producer (account 0)
fails with the assertion of line 171. -/
theorem release_to_producer_rejected :
    music_contract_release_evaluator.evaluate expired_db (release_op 1 0 40)
      = (Except.error (fc_exception.assert_failed 171), expired_db) :=
  rfl

/-- C4: on the disputed record the release by the agent (account 2) to the producer
(account 0) fails with the assertion of line 171, while the release by the agent to the
musician is accepted. -/
theorem disputed_release_to_producer_rejected :
    music_contract_release_evaluator.evaluate disputed_db (release_op 2 0 40)
      = (Except.error (fc_exception.assert_failed 171), disputed_db) ∧
    (music_contract_release_evaluator.evaluate disputed_db (release_op 2 1 40)).1
      = Except.ok () :=
  ⟨rfl, rfl⟩

/-- C5: on the approved, expired, undisputed record three of the four combinations are
rejected: producer to producer and musician to producer by the assertion of line 171,
producer to musician by the assertion of line 181; musician to musician is accepted. -/
theorem expired_release_combinations :
    music_contract_release_evaluator.evaluate expired_db (release_op 0 0 40)
      = (Except.error (fc_exception.assert_failed 171), expired_db) ∧
    music_contract_release_evaluator.evaluate expired_db (release_op 1 0 40)
      = (Except.error (fc_exception.assert_failed 171), expired_db) ∧
    music_contract_release_evaluator.evaluate expired_db (release_op 0 1 40)
      = (Except.error (fc_exception.assert_failed 181), expired_db) ∧
    (music_contract_release_evaluator.evaluate expired_db (release_op 1 1 40)).1
      = Except.ok () :=
  ⟨rfl, rfl, rfl, rfl⟩

/-- C6: for a release addressed to the record `c`: if its amount is of another asset
type than `c.amount`, exceeds `c.amount`, or is not positive, the release fails and the
database is unchanged; and an accepted release has a positive amount, at most
`c.amount`, of the asset type of `c.amount`. -/
theorem release_rejects_invalid_amount (db : database)
    (o : music_contract_release_operation) (c : music_contract_object)
    (hc : db.get_music_contract o.producer o.contract_id = Except.ok c) :
    ((o.amount.asset_id ≠ c.amount.asset_id ∨ c.amount.amount < o.amount.amount ∨
        o.amount.amount ≤ 0) →
      ∃ e, music_contract_release_evaluator.evaluate db o = (Except.error e, db)) ∧
    ((music_contract_release_evaluator.evaluate db o).1 = Except.ok () →
      0 < o.amount.amount ∧ o.amount.amount ≤ c.amount.amount ∧
        o.amount.asset_id = c.amount.asset_id) := by
  have key : music_contract_release_evaluator.do_evaluate db o = Except.ok () →
      0 < o.amount.amount ∧ o.amount.amount ≤ c.amount.amount ∧
        o.amount.asset_id = c.amount.asset_id := by
    intro h
    obtain ⟨c1, hc1, h1, h2, h3, -⟩ :=
      (music_contract_release_evaluator.do_evaluate_ok_iff db o).1 h
    rw [hc] at hc1
    cases hc1
    exact ⟨h3, h1, h2.symm⟩
  constructor
  · intro hbad
    have hne : music_contract_release_evaluator.do_evaluate db o ≠ Except.ok () := by
      intro h
      obtain ⟨h3, h1, h2⟩ := key h
      rcases hbad with hb | hb | hb
      · exact hb h2
      · exact absurd h1 (not_le.mpr hb)
      · exact absurd h3 (not_lt.mpr hb)
    obtain ⟨e, he⟩ := music_contract_release_evaluator.not_ok_cases _ hne
    exact ⟨e, music_contract_release_evaluator.evaluate_of_error db o e he⟩
  · intro h
    exact key ((music_contract_release_evaluator.accepted_iff db o).1 h)

/-- Witness for C6: on the approved record holding 100 a release of 101 fails, and the
accepted release of 40 lies within the bounds. -/
theorem release_rejects_invalid_amount_witness :
    approved_db.get_music_contract 0 1 = Except.ok approved_record ∧
    (∃ e, music_contract_release_evaluator.evaluate approved_db (release_op 1 1 101)
      = (Except.error e, approved_db)) ∧
    ((0 : share_type) < 40 ∧ (40 : share_type) ≤ 100 ∧ (0 : asset_id_type) = 0) :=
  ⟨rfl,
   (release_rejects_invalid_amount approved_db (release_op 1 1 101) approved_record rfl).1
     (Or.inr (Or.inl (by decide))),
   (release_rejects_invalid_amount approved_db (release_op 1 1 40) approved_record rfl).2 rfl⟩

/-! ## Release: effects -/

/-- C7: an accepted release of `o.amount` addressed to the record `c` credits exactly
`o.amount` to the receiver and changes no other balance; when the remaining quantity
`c.amount - o.amount` is zero the record is removed (no object with its identity stays
in the store, every other object stays as it was), and otherwise it stays in the store,
found by the same lookup, with its amount decremented and every other field as it
was. -/
theorem release_effects (db : database) (o : music_contract_release_operation)
    (c : music_contract_object)
    (hc : db.get_music_contract o.producer o.contract_id = Except.ok c)
    (hacc : (music_contract_release_evaluator.evaluate db o).1 = Except.ok ()) :
    (∀ acc a, (music_contract_release_evaluator.evaluate db o).2.balances acc a
        = db.balances acc a +
          (if acc = o.receiver ∧ a = o.amount.asset_id then o.amount.amount else 0)) ∧
    (c.amount.amount - o.amount.amount = 0 →
      (music_contract_release_evaluator.evaluate db o).2.contracts
          = db.contracts.filter (fun x => decide (x.id ≠ c.id)) ∧
        ∀ x ∈ (music_contract_release_evaluator.evaluate db o).2.contracts, x.id ≠ c.id) ∧
    (c.amount.amount - o.amount.amount ≠ 0 →
      (music_contract_release_evaluator.evaluate db o).2.contracts
          = db.contracts.map (fun x => if x.id = c.id then
              { x with amount := { amount := x.amount.amount - o.amount.amount,
                                   asset_id := x.amount.asset_id } } else x) ∧
        (music_contract_release_evaluator.evaluate db o).2.get_music_contract
            o.producer o.contract_id
          = Except.ok { c with amount := { amount := c.amount.amount - o.amount.amount,
                                           asset_id := c.amount.asset_id } }) := by
  have he := (music_contract_release_evaluator.accepted_iff db o).1 hacc
  rw [music_contract_release_evaluator.evaluate_of_ok db o c hc he]
  refine ⟨?_, ?_, ?_⟩
  · intro acc a
    split_ifs <;> simp_all [database.adjust_balance]
  · intro h0
    rw [if_pos h0]
    refine ⟨rfl, ?_⟩
    intro x hx
    simpa using (List.mem_filter.1 hx).2
  · intro h0
    rw [if_neg h0]
    refine ⟨rfl, ?_⟩
    have h := database.get_music_contract_map db o.producer o.contract_id c
      (fun x => if x.id = c.id then
        { x with amount := { amount := x.amount.amount - o.amount.amount,
                             asset_id := x.amount.asset_id } } else x) _
      (fun x => by dsimp only; split_ifs <;> exact ⟨rfl, rfl⟩) rfl hc
      { db with
        balances := (db.adjust_balance o.receiver o.amount).balances
        contracts := db.contracts.map (fun x => if x.id = c.id then
          { x with amount := { amount := x.amount.amount - o.amount.amount,
                               asset_id := x.amount.asset_id } } else x) } rfl
    rw [h]
    simp

/-- Witness for C7: the accepted release of 40 out of 100 by the musician credits 40 to
account 1 and leaves the record with 60; the accepted release of all 100 empties the
store. -/
theorem release_effects_witness :
    approved_db.get_music_contract 0 1 = Except.ok approved_record ∧
    (music_contract_release_evaluator.evaluate approved_db (release_op 1 1 40)).1
      = Except.ok () ∧
    (music_contract_release_evaluator.evaluate approved_db (release_op 1 1 40)).2.balances 1 0
      = approved_db.balances 1 0 + 40 ∧
    (music_contract_release_evaluator.evaluate approved_db
        (release_op 1 1 40)).2.get_music_contract 0 1
      = Except.ok { approved_record with amount := { amount := 60, asset_id := 0 } } ∧
    (music_contract_release_evaluator.evaluate approved_db (release_op 1 1 100)).2.contracts
      = [] :=
  ⟨rfl, rfl,
   (release_effects approved_db (release_op 1 1 40) approved_record rfl rfl).1 1 0,
   ((release_effects approved_db (release_op 1 1 40) approved_record rfl rfl).2.2
      (by decide)).2,
   ((release_effects approved_db (release_op 1 1 100) approved_record rfl rfl).2.1
      (by decide)).1⟩

/-- C8: let the record `c` under the key (`p`, `k`) hold `A > 0`, and let a sequence of
releases addressed to it be accepted one after the other, their amounts summing to `A`.
Then afterwards the lookup by (`p`, `k`) fails; every balance has grown by exactly the
amounts of the releases made to that account in that asset, so that the credits summed
over the receivers equal `A`; and after every prefix of the sequence with a smaller sum
the record is still in the store, holding `A` minus that sum. -/
theorem releases_summing_to_amount (db db2 : database) (p : account_id_type) (k : Nat)
    (c : music_contract_object) (os : List music_contract_release_operation)
    (hu : db.by_producer_id_unique)
    (hc : db.get_music_contract p k = Except.ok c)
    (hpos : 0 < c.amount.amount)
    (haddr : ∀ o ∈ os, o.producer = p ∧ o.contract_id = k)
    (hrun : apply_releases db os = some db2)
    (hsum : released_total os = c.amount.amount) :
    db2.get_music_contract p k = Except.error fc_exception.not_found ∧
    (∀ acc a, db2.balances acc a = db.balances acc a + credited_to os acc a) ∧
    (os.map (fun o => o.receiver)).toFinset.sum
        (fun r => db2.balances r c.amount.asset_id - db.balances r c.amount.asset_id)
      = c.amount.amount ∧
    (∀ os1 os2, os = os1 ++ os2 → released_total os1 < c.amount.amount →
      ∃ db1 c1, apply_releases db os1 = some db1 ∧
        db1.get_music_contract p k = Except.ok c1 ∧
        c1.amount.amount = c.amount.amount - released_total os1) := by
  obtain ⟨-, hasset, hbal, hzero, -⟩ := apply_releases_spec p k os db db2 c hu hc hpos haddr hrun
  refine ⟨hzero hsum, hbal, ?_, ?_⟩
  · have h := sum_credited_to c.amount.asset_id (os.map (fun o => o.receiver)).toFinset os
      (fun o ho => by
        rw [List.mem_toFinset]
        exact List.mem_map_of_mem (fun o => o.receiver) ho)
      hasset
    rw [← hsum, ← h]
    apply Finset.sum_congr rfl
    intro r _
    rw [hbal]
    ring
  · intro os1 os2 hsplit hlt
    rw [hsplit] at hrun haddr
    obtain ⟨db1, hrun1, -⟩ := apply_releases_append os1 os2 db db2 hrun
    obtain ⟨-, -, -, -, hrest⟩ := apply_releases_spec p k os1 db db1 c hu hc hpos
      (fun o ho => haddr o (List.mem_append_left _ ho)) hrun1
    exact ⟨db1, _, hrun1, hrest (ne_of_lt hlt), rfl⟩

/-- Witness for C8: the record holding 100 is released as 40 and then 60 by the
musician; afterwards the lookup fails and account 1 has received 100, while after the
first release the record is still there, holding 60. -/
theorem releases_summing_to_amount_witness :
    approved_db.by_producer_id_unique ∧
    approved_db.get_music_contract 0 1 = Except.ok approved_record ∧
    apply_releases approved_db [release_op 1 1 40, release_op 1 1 60]
      = some (music_contract_release_evaluator.evaluate
          (music_contract_release_evaluator.evaluate approved_db (release_op 1 1 40)).2
          (release_op 1 1 60)).2 ∧
    released_total [release_op 1 1 40, release_op 1 1 60] = 100 ∧
    (music_contract_release_evaluator.evaluate
        (music_contract_release_evaluator.evaluate approved_db (release_op 1 1 40)).2
        (release_op 1 1 60)).2.get_music_contract 0 1
      = Except.error fc_exception.not_found ∧
    (music_contract_release_evaluator.evaluate
        (music_contract_release_evaluator.evaluate approved_db (release_op 1 1 40)).2
        (release_op 1 1 60)).2.balances 1 0
      = approved_db.balances 1 0 + 100 ∧
    (∃ db1 c1, apply_releases approved_db [release_op 1 1 40] = some db1 ∧
        db1.get_music_contract 0 1 = Except.ok c1 ∧ c1.amount.amount = 100 - 40) :=
  have h := releases_summing_to_amount approved_db
    (music_contract_release_evaluator.evaluate
      (music_contract_release_evaluator.evaluate approved_db (release_op 1 1 40)).2
      (release_op 1 1 60)).2
    0 1 approved_record [release_op 1 1 40, release_op 1 1 60]
    (List.nodup_singleton _) rfl (by decide)
    (by intro o ho; simp at ho; rcases ho with h | h <;> subst h <;> exact ⟨rfl, rfl⟩)
    rfl rfl
  ⟨List.nodup_singleton _, rfl, rfl, rfl, h.1, h.2.1 1 0,
    h.2.2.2 [release_op 1 1 40] [release_op 1 1 60] rfl (by decide)⟩

/-! ## Open -/

/-- C9: `do_evaluate` of the transfer evaluator accepts exactly when the ratification
deadline and the contract expiration are later than the head block time and, if the
escrowed asset is the core asset, the core balance of the producer is at least
amount + fee + agent fee.  So a deadline equal to the head block time is rejected,
and for another asset the balance is not looked at. -/
theorem transfer_do_evaluate_iff (db : database) (o : music_contract_transfer_operation) :
    (music_contract_transfer_evaluator.do_evaluate db o = Except.ok () ↔
      db.head_block_time < o.ratification_deadline ∧
      db.head_block_time < o.contract_expiration ∧
      (o.amount.asset_id ≠ 0 ∨
        o.amount.amount + o.fee.amount + o.agent_fee.amount ≤ db.balances o.producer 0)) ∧
    (o.ratification_deadline = db.head_block_time →
      music_contract_transfer_evaluator.do_evaluate db o
        = Except.error (fc_exception.assert_failed 34)) ∧
    (o.amount.asset_id ≠ 0 →
      (music_contract_transfer_evaluator.do_evaluate db o = Except.ok () ↔
        db.head_block_time < o.ratification_deadline ∧
        db.head_block_time < o.contract_expiration)) := by
  have hiff : music_contract_transfer_evaluator.do_evaluate db o = Except.ok () ↔
      db.head_block_time < o.ratification_deadline ∧
      db.head_block_time < o.contract_expiration ∧
      (o.amount.asset_id ≠ 0 ∨
        o.amount.amount + o.fee.amount + o.agent_fee.amount ≤ db.balances o.producer 0) := by
    simp only [music_contract_transfer_evaluator.do_evaluate, bind, Except.bind, FC_ASSERT,
      asset.ge, asset.add, database.get_balance, pure, Except.pure]
    by_cases h1 : db.head_block_time < o.ratification_deadline
    · by_cases h2 : db.head_block_time < o.contract_expiration
      · by_cases h3 : o.amount.asset_id = 0
        · by_cases h4 : o.amount.amount + o.fee.amount + o.agent_fee.amount
              ≤ db.balances o.producer 0
          · simp [h1, h2, h3, h4]
          · simp [h1, h2, h3, h4]
        · simp [h1, h2, h3]
      · simp [h1, h2]
    · simp [h1]
  refine ⟨hiff, ?_, ?_⟩
  · intro h
    simp [music_contract_transfer_evaluator.do_evaluate, bind, Except.bind, FC_ASSERT, h]
  · intro h
    rw [hiff]
    simp [h]

/-- What `do_apply` of the transfer evaluator has done to the balances when it reaches
the creation of the object (lines 46-51). -/
theorem transfer_balances (db : database) (o : music_contract_transfer_operation)
    (acc : account_id_type) (a : asset_id_type) :
    (((if o.agent_fee.amount > 0 then
        (db.adjust_balance o.producer o.agent_fee.neg).adjust_balance o.agent o.agent_fee
      else db).adjust_balance o.producer o.amount.neg).balances acc a)
      = db.balances acc a
        + (if 0 < o.agent_fee.amount ∧ acc = o.producer ∧ a = o.agent_fee.asset_id
            then -o.agent_fee.amount else 0)
        + (if 0 < o.agent_fee.amount ∧ acc = o.agent ∧ a = o.agent_fee.asset_id
            then o.agent_fee.amount else 0)
        + (if acc = o.producer ∧ a = o.amount.asset_id then -o.amount.amount else 0) := by
  by_cases hf : 0 < o.agent_fee.amount
  · simp only [gt_iff_lt, hf, if_true, database.adjust_balance, asset.neg, true_and]
    split_ifs <;> simp_all
  · simp only [gt_iff_lt, hf, if_false, database.adjust_balance, asset.neg, false_and,
      add_zero]
    split_ifs <;> simp

/-- The outcome of `do_apply` of the transfer evaluator: either the creation fails on a
clash of unique keys, the balances being adjusted already, or the object is created. -/
theorem transfer_do_apply_eq (db : database) (o : music_contract_transfer_operation) :
    (db.contracts.any (fun x => database.unique_key_clash x
        { music_contract_transfer_evaluator.init_contract o {} with id := db.next_id })
        = true ∧
      music_contract_transfer_evaluator.do_apply db o
        = (Except.error fc_exception.uniqueness_violated,
            (if o.agent_fee.amount > 0 then
              (db.adjust_balance o.producer o.agent_fee.neg).adjust_balance
                o.agent o.agent_fee
            else db).adjust_balance o.producer o.amount.neg)) ∨
    (db.contracts.any (fun x => database.unique_key_clash x
        { music_contract_transfer_evaluator.init_contract o {} with id := db.next_id })
        = false ∧
      music_contract_transfer_evaluator.do_apply db o
        = (Except.ok db.next_id,
            { (if o.agent_fee.amount > 0 then
                (db.adjust_balance o.producer o.agent_fee.neg).adjust_balance
                  o.agent o.agent_fee
              else db).adjust_balance o.producer o.amount.neg with
              contracts := db.contracts ++
                [{ music_contract_transfer_evaluator.init_contract o {} with
                   id := db.next_id }]
              next_id := db.next_id + 1 })) := by
  have hc : ((if o.agent_fee.amount > 0 then
      (db.adjust_balance o.producer o.agent_fee.neg).adjust_balance o.agent o.agent_fee
      else db).adjust_balance o.producer o.amount.neg).contracts = db.contracts := by
    split_ifs <;> rfl
  have hn : ((if o.agent_fee.amount > 0 then
      (db.adjust_balance o.producer o.agent_fee.neg).adjust_balance o.agent o.agent_fee
      else db).adjust_balance o.producer o.amount.neg).next_id = db.next_id := by
    split_ifs <;> rfl
  by_cases hk : db.contracts.any (fun x => database.unique_key_clash x
      { music_contract_transfer_evaluator.init_contract o {} with id := db.next_id })
      = true
  · left
    refine ⟨hk, ?_⟩
    simp only [music_contract_transfer_evaluator.do_apply, database.create, hc, hn, hk,
      if_true]
  · right
    refine ⟨by simpa using hk, ?_⟩
    simp only [music_contract_transfer_evaluator.do_apply, database.create, hc, hn, hk,
      if_false, Bool.false_eq_true]

/-- The outcome of the transfer evaluator, case by case: the evaluation fails; or it
passes and the creation fails on a clash of unique keys, the balances being adjusted
already; or the object is created. -/
theorem transfer_evaluate_eq (db : database) (o : music_contract_transfer_operation) :
    (∃ e, music_contract_transfer_evaluator.do_evaluate db o = Except.error e ∧
      music_contract_transfer_evaluator.evaluate db o = (Except.error e, db)) ∨
    (music_contract_transfer_evaluator.do_evaluate db o = Except.ok () ∧
      db.contracts.any (fun x => database.unique_key_clash x
        { music_contract_transfer_evaluator.init_contract o {} with id := db.next_id })
        = true ∧
      music_contract_transfer_evaluator.evaluate db o
        = (Except.error fc_exception.uniqueness_violated,
            (if o.agent_fee.amount > 0 then
              (db.adjust_balance o.producer o.agent_fee.neg).adjust_balance
                o.agent o.agent_fee
            else db).adjust_balance o.producer o.amount.neg)) ∨
    (music_contract_transfer_evaluator.do_evaluate db o = Except.ok () ∧
      db.contracts.any (fun x => database.unique_key_clash x
        { music_contract_transfer_evaluator.init_contract o {} with id := db.next_id })
        = false ∧
      music_contract_transfer_evaluator.evaluate db o
        = (Except.ok db.next_id,
            { (if o.agent_fee.amount > 0 then
                (db.adjust_balance o.producer o.agent_fee.neg).adjust_balance
                  o.agent o.agent_fee
              else db).adjust_balance o.producer o.amount.neg with
              contracts := db.contracts ++
                [{ music_contract_transfer_evaluator.init_contract o {} with
                   id := db.next_id }]
              next_id := db.next_id + 1 })) := by
  cases he : music_contract_transfer_evaluator.do_evaluate db o with
  | error e =>
    exact Or.inl ⟨e, rfl, by simp [music_contract_transfer_evaluator.evaluate, he]⟩
  | ok u =>
    have hev : music_contract_transfer_evaluator.evaluate db o
        = music_contract_transfer_evaluator.do_apply db o := by
      simp only [music_contract_transfer_evaluator.evaluate, he]
    rw [hev]
    rcases transfer_do_apply_eq db o with ⟨hk, heq⟩ | ⟨hk, heq⟩
    · exact Or.inr (Or.inl ⟨rfl, hk, heq⟩)
    · exact Or.inr (Or.inr ⟨rfl, hk, heq⟩)

/-- The store and the balances after an accepted transfer. -/
theorem transfer_accepted (db : database) (o : music_contract_transfer_operation)
    (i : object_id_type)
    (h : (music_contract_transfer_evaluator.evaluate db o).1 = Except.ok i) :
    i = db.next_id ∧
    (music_contract_transfer_evaluator.evaluate db o).2.contracts
      = db.contracts ++
        [{ music_contract_transfer_evaluator.init_contract o {} with id := db.next_id }] ∧
    (music_contract_transfer_evaluator.evaluate db o).2.next_id = db.next_id + 1 ∧
    (∀ acc a, (music_contract_transfer_evaluator.evaluate db o).2.balances acc a
      = db.balances acc a
        + (if 0 < o.agent_fee.amount ∧ acc = o.producer ∧ a = o.agent_fee.asset_id
            then -o.agent_fee.amount else 0)
        + (if 0 < o.agent_fee.amount ∧ acc = o.agent ∧ a = o.agent_fee.asset_id
            then o.agent_fee.amount else 0)
        + (if acc = o.producer ∧ a = o.amount.asset_id then -o.amount.amount else 0)) := by
  rcases transfer_evaluate_eq db o with ⟨e, -, heq⟩ | ⟨-, -, heq⟩ | ⟨-, -, heq⟩
  · rw [heq] at h; simp at h
  · rw [heq] at h; simp at h
  · rw [heq] at h ⊢
    simp only [Except.ok.injEq] at h
    exact ⟨h.symm, rfl, rfl, fun acc a => transfer_balances db o acc a⟩

/-- C10 fails on the code when the producer is also the agent: the transfer of account
0 naming account 0 as agent, with an amount of 100 and an agent fee of 5, is accepted,
and the producer is left with 900 out of 1000: the balance went down by the amount
only, although the agent fee is positive. -/
theorem transfer_to_own_agent :
    (music_contract_transfer_evaluator.evaluate funded_db (open_with_agent 0)).1
      = Except.ok 0 ∧
    (open_with_agent 0).producer = (open_with_agent 0).agent ∧
    (0 : share_type) < (open_with_agent 0).agent_fee.amount ∧
    (open_with_agent 0).amount.amount = 100 ∧
    (open_with_agent 0).agent_fee.amount = 5 ∧
    funded_db.balances 0 0 = 1000 ∧
    (music_contract_transfer_evaluator.evaluate funded_db
      (open_with_agent 0)).2.balances 0 0 = 900 :=
  ⟨rfl, rfl, by decide, rfl, rfl, rfl, rfl⟩

/-- C10 as amended: for an accepted transfer: the evaluator returns the identity of the
record it creates; the store grows by exactly that one record, which holds the amount
of the operation, the agent fee as pending fee, the two deadlines of the operation, and
has `signed`, `agent_approved` and `disputed` false; and the balance of the producer in
every asset goes down by exactly the amount, plus the agent fee when the agent fee is
positive and the agent is an account other than the producer. -/
theorem transfer_effects (db : database) (o : music_contract_transfer_operation)
    (i : object_id_type)
    (hacc : (music_contract_transfer_evaluator.evaluate db o).1 = Except.ok i) :
    i = db.next_id ∧
    (∃ ctr : music_contract_object,
      (music_contract_transfer_evaluator.evaluate db o).2.contracts = db.contracts ++ [ctr] ∧
      ctr.id = i ∧ ctr.amount = o.amount ∧ ctr.pending_fee = o.agent_fee ∧
      ctr.ratification_deadline = o.ratification_deadline ∧
      ctr.contract_expiration = o.contract_expiration ∧
      ctr.signed = false ∧ ctr.agent_approved = false ∧ ctr.disputed = false) ∧
    (∀ a, (music_contract_transfer_evaluator.evaluate db o).2.balances o.producer a
      = db.balances o.producer a
        - (if a = o.amount.asset_id then o.amount.amount else 0)
        - (if 0 < o.agent_fee.amount ∧ o.producer ≠ o.agent ∧ a = o.agent_fee.asset_id
            then o.agent_fee.amount else 0)) := by
  obtain ⟨hi, hc, -, hb⟩ := transfer_accepted db o i hacc
  refine ⟨hi, ⟨_, hc, hi.symm, rfl, rfl, rfl, rfl, rfl, rfl, rfl⟩, ?_⟩
  intro a
  rw [hb]
  by_cases hpa : o.producer = o.agent
  · simp only [true_and, hpa, ne_eq, not_true_eq_false, false_and, and_false, if_false]
    split_ifs <;> ring
  · simp only [true_and, hpa, ne_eq, not_false_eq_true, false_and, and_false, if_false,
      add_zero]
    split_ifs <;> ring

/-- Witness for C10 as amended: the producer owning 1000 opens the contract with 100 in
escrow and an agent fee of 5 for the agent, account 2; the evaluator returns the
identity 0 and the producer is left with 895. -/
theorem transfer_effects_witness :
    (music_contract_transfer_evaluator.evaluate funded_db open_op).1 = Except.ok 0 ∧
    (0 : object_id_type) = funded_db.next_id ∧
    (music_contract_transfer_evaluator.evaluate funded_db open_op).2.balances 0 0
      = 1000 - 100 - 5 :=
  ⟨rfl,
   (transfer_effects funded_db open_op 0 rfl).1,
   (transfer_effects funded_db open_op 0 rfl).2.2 0⟩

/-! ## Lemmas on the store primitives -/

namespace database

theorem get_music_contract_adjust_balance (db : database) (acc : account_id_type)
    (d : asset) (p : account_id_type) (k : Nat) :
    (db.adjust_balance acc d).get_music_contract p k = db.get_music_contract p k := rfl

theorem balances_modify (db : database) (obj : music_contract_object)
    (m : music_contract_object → music_contract_object) :
    (db.modify obj m).balances = db.balances := rfl

theorem balances_remove (db : database) (obj : music_contract_object) :
    (db.remove obj).balances = db.balances := rfl

theorem balances_adjust_balance (db : database) (owner : account_id_type) (d : asset)
    (acc : account_id_type) (a : asset_id_type) :
    (db.adjust_balance owner d).balances acc a
      = db.balances acc a + (if acc = owner ∧ a = d.asset_id then d.amount else 0) := by
  unfold adjust_balance
  split_ifs <;> simp_all

/-- The lookup after a `modify` whose mutator keeps the key fields: it finds the object
it found before, mutated when it is the modified one. -/
theorem get_music_contract_modify (db : database) (obj c : music_contract_object)
    (m : music_contract_object → music_contract_object)
    (hm : ∀ x, (m x).producer = x.producer ∧ (m x).contract_id = x.contract_id)
    (p : account_id_type) (k : Nat) (hc : db.get_music_contract p k = Except.ok c) :
    (db.modify obj m).get_music_contract p k
      = Except.ok (if c.id = obj.id then m c else c) :=
  get_music_contract_map db p k c (fun x => if x.id = obj.id then m x else x) _
    (fun x => by dsimp only; split_ifs <;> simp [hm x]) rfl hc (db.modify obj m) rfl

theorem get_music_contract_remove (db : database) (c : music_contract_object)
    (p : account_id_type) (k : Nat) (hu : db.by_producer_id_unique)
    (hc : db.get_music_contract p k = Except.ok c) :
    (db.remove c).get_music_contract p k = Except.error fc_exception.not_found :=
  get_music_contract_filter db p k c hu hc (db.remove c) rfl

end database

/-! ## Lemmas on the approve evaluator -/

namespace music_contract_approve_evaluator

theorem approve_evaluate_ok_iff (db : database) (o : music_contract_approve_operation) :
    do_evaluate db o = Except.ok () ↔
      ∃ c, db.get_music_contract o.producer o.contract_id = Except.ok c ∧
        c.musician = o.musician ∧ c.agent = o.agent ∧
        db.head_block_time ≤ c.ratification_deadline := by
  unfold do_evaluate
  cases hc : db.get_music_contract o.producer o.contract_id with
  | error e => simp [bind, Except.bind]
  | ok c =>
    simp only [bind, Except.bind, FC_ASSERT, pure, Except.pure]
    constructor
    · intro h
      refine ⟨c, rfl, ?_⟩
      split_ifs at h
      simp_all
    · rintro ⟨c1, hc1, h1, h2, h3⟩
      cases hc1
      split_ifs <;> simp_all

/-- The outcome of lines 84-111, case by case. -/
theorem set_approval_eq (db : database) (o : music_contract_approve_operation)
    (c : music_contract_object) :
    set_approval db o c =
      if o.who = o.musician then
        if c.signed = true then Except.error (fc_exception.assert_failed 86)
        else if o.approve = true then
          Except.ok ({ c with signed := true },
            db.modify c (fun ctr => { ctr with signed := true }))
        else Except.ok (c, db)
      else if o.who = o.agent then
        if c.agent_approved = true then Except.error (fc_exception.assert_failed 98)
        else if o.approve = true then
          Except.ok ({ c with agent_approved := true },
            db.modify c (fun ctr => { ctr with agent_approved := true }))
        else Except.ok (c, db)
      else Except.error (fc_exception.assert_failed 110) := by
  unfold set_approval
  simp only [bind, Except.bind, FC_ASSERT, pure, Except.pure]
  split_ifs <;> simp_all

/-- A failed approve leaves the database as it was. -/
theorem approve_of_not_ok (db : database) (o : music_contract_approve_operation)
    (h : (evaluate db o).1 ≠ Except.ok ()) :
    ∃ e, evaluate db o = (Except.error e, db) := by
  unfold evaluate at h ⊢
  cases he : do_evaluate db o with
  | error e => exact ⟨e, rfl⟩
  | ok u =>
    simp only [he] at h ⊢
    unfold do_apply at h ⊢
    cases hc : db.get_music_contract o.producer o.contract_id with
    | error e => exact ⟨e, rfl⟩
    | ok c =>
      simp only [hc] at h ⊢
      cases hs : set_approval db o c with
      | error e => exact ⟨e, rfl⟩
      | ok r =>
        exfalso
        apply h
        simp only [hs]
        split_ifs <;> rfl

/-- An approve is accepted only when its evaluation passed. -/
theorem do_evaluate_of_accepted (db : database) (o : music_contract_approve_operation)
    (h : (evaluate db o).1 = Except.ok ()) : do_evaluate db o = Except.ok () := by
  unfold evaluate at h
  cases he : do_evaluate db o with
  | error e => simp [he] at h
  | ok u => rfl

/-- The database after an accepted rejection. -/
theorem evaluate_reject (db : database) (o : music_contract_approve_operation)
    (c : music_contract_object)
    (hc : db.get_music_contract o.producer o.contract_id = Except.ok c)
    (hacc : (evaluate db o).1 = Except.ok ()) (hrej : o.approve = false) :
    evaluate db o = (Except.ok (),
      ((db.adjust_balance o.producer c.amount).adjust_balance o.producer
        c.pending_fee).remove c) ∧
    ((o.who = o.musician ∧ c.signed = false) ∨
      (o.who ≠ o.musician ∧ o.who = o.agent ∧ c.agent_approved = false)) := by
  have he := do_evaluate_of_accepted db o hacc
  simp only [evaluate, he, do_apply, hc, set_approval_eq, hrej] at hacc ⊢
  split_ifs at hacc ⊢ <;> simp_all

/-- The database after an accepted approval (`approve = true`): the flag of the caller
is set, and when both flags are set then, the pending fee goes to the agent and is
zeroed in the object. -/
theorem evaluate_approve (db : database) (o : music_contract_approve_operation)
    (c : music_contract_object)
    (hc : db.get_music_contract o.producer o.contract_id = Except.ok c)
    (hacc : (evaluate db o).1 = Except.ok ()) (happ : o.approve = true) :
    (o.who = o.musician ∧ c.signed = false ∧
      evaluate db o = (Except.ok (),
        if c.agent_approved = true then
          ((db.modify c (fun ctr => { ctr with signed := true })).adjust_balance
            o.agent c.pending_fee).modify c
            (fun ctr => { ctr with pending_fee := { ctr.pending_fee with amount := 0 } })
        else db.modify c (fun ctr => { ctr with signed := true }))) ∨
    (o.who ≠ o.musician ∧ o.who = o.agent ∧ c.agent_approved = false ∧
      evaluate db o = (Except.ok (),
        if c.signed = true then
          ((db.modify c (fun ctr => { ctr with agent_approved := true })).adjust_balance
            o.agent c.pending_fee).modify c
            (fun ctr => { ctr with pending_fee := { ctr.pending_fee with amount := 0 } })
        else db.modify c (fun ctr => { ctr with agent_approved := true }))) := by
  have he := do_evaluate_of_accepted db o hacc
  simp only [evaluate, he, do_apply, hc, set_approval_eq, happ] at hacc ⊢
  by_cases h1 : o.who = o.musician
  · left
    by_cases h2 : c.signed = true
    · simp [h1, h2] at hacc
    · by_cases h3 : c.agent_approved = true
      · simp [h1, h2, h3, database.modify]
      · simp [h1, h2, h3]
  · right
    by_cases h4 : o.who = o.agent
    · have h5 : ¬ o.agent = o.musician := by rw [← h4]; exact h1
      by_cases h2 : c.agent_approved = true
      · simp [h5, h4, h2] at hacc
      · by_cases h3 : c.signed = true
        · simp [h5, h4, h2, h3, database.modify]
        · simp [h5, h4, h2, h3]
    · simp [h1, h4] at hacc

/-- After an accepted approval: the object the lookup finds, and the balances. -/
theorem approve_outcome (db : database) (o : music_contract_approve_operation)
    (c : music_contract_object)
    (hc : db.get_music_contract o.producer o.contract_id = Except.ok c)
    (hacc : (evaluate db o).1 = Except.ok ()) (happ : o.approve = true) :
    (o.who = o.musician ∧ c.signed = false ∧
      (c.agent_approved = false →
        (evaluate db o).2.get_music_contract o.producer o.contract_id
            = Except.ok { c with signed := true } ∧
          (evaluate db o).2.balances = db.balances) ∧
      (c.agent_approved = true →
        (evaluate db o).2.get_music_contract o.producer o.contract_id
            = Except.ok { c with signed := true,
                                 pending_fee := { c.pending_fee with amount := 0 } } ∧
          (evaluate db o).2.balances
            = (db.adjust_balance o.agent c.pending_fee).balances)) ∨
    (o.who ≠ o.musician ∧ o.who = o.agent ∧ c.agent_approved = false ∧
      (c.signed = false →
        (evaluate db o).2.get_music_contract o.producer o.contract_id
            = Except.ok { c with agent_approved := true } ∧
          (evaluate db o).2.balances = db.balances) ∧
      (c.signed = true →
        (evaluate db o).2.get_music_contract o.producer o.contract_id
            = Except.ok { c with agent_approved := true,
                                 pending_fee := { c.pending_fee with amount := 0 } } ∧
          (evaluate db o).2.balances
            = (db.adjust_balance o.agent c.pending_fee).balances)) := by
  rcases evaluate_approve db o c hc hacc happ with ⟨h1, h2, heq⟩ | ⟨h1, h2, h3, heq⟩
  · refine Or.inl ⟨h1, h2, ?_, ?_⟩
    · intro h
      rw [heq]
      simp only [h, Bool.false_eq_true, if_false]
      refine ⟨?_, rfl⟩
      refine Eq.trans (database.get_music_contract_modify db c c _ ?_ _ _ hc) ?_
      · intro x; exact ⟨rfl, rfl⟩
      · simp [h, h2]
    · intro h
      rw [heq]
      simp only [h, if_true]
      refine ⟨?_, rfl⟩
      refine Eq.trans (database.get_music_contract_modify _ c
        { c with signed := true } _ ?_ _ _ ?_) ?_
      · intro x; exact ⟨rfl, rfl⟩
      · rw [database.get_music_contract_adjust_balance]
        refine Eq.trans (database.get_music_contract_modify db c c _ ?_ _ _ hc) ?_
        · intro x; exact ⟨rfl, rfl⟩
        · simp [h, h2]
      · simp [h, h2]
  · refine Or.inr ⟨h1, h2, h3, ?_, ?_⟩
    · intro h
      rw [heq]
      simp only [h, Bool.false_eq_true, if_false]
      refine ⟨?_, rfl⟩
      refine Eq.trans (database.get_music_contract_modify db c c _ ?_ _ _ hc) ?_
      · intro x; exact ⟨rfl, rfl⟩
      · simp [h, h2]
    · intro h
      rw [heq]
      simp only [h, if_true]
      refine ⟨?_, rfl⟩
      refine Eq.trans (database.get_music_contract_modify _ c
        { c with agent_approved := true } _ ?_ _ _ ?_) ?_
      · intro x; exact ⟨rfl, rfl⟩
      · rw [database.get_music_contract_adjust_balance]
        refine Eq.trans (database.get_music_contract_modify db c c _ ?_ _ _ hc) ?_
        · intro x; exact ⟨rfl, rfl⟩
        · simp [h, h2]
      · simp [h, h2]

/-- What the acceptance of an approve says about the operation and the record. -/
theorem approve_accepted_facts (db : database) (o : music_contract_approve_operation)
    (c : music_contract_object)
    (hc : db.get_music_contract o.producer o.contract_id = Except.ok c)
    (hacc : (evaluate db o).1 = Except.ok ()) :
    c.musician = o.musician ∧ c.agent = o.agent ∧
    db.head_block_time ≤ c.ratification_deadline ∧
    ((o.who = o.musician ∧ c.signed = false) ∨
      (o.who ≠ o.musician ∧ o.who = o.agent ∧ c.agent_approved = false)) := by
  obtain ⟨c1, hc1, hm, ha, ht⟩ := (approve_evaluate_ok_iff db o).1
    (do_evaluate_of_accepted db o hacc)
  rw [hc] at hc1
  cases hc1
  refine ⟨hm, ha, ht, ?_⟩
  by_cases happ : o.approve = true
  · rcases evaluate_approve db o c hc hacc happ with ⟨h1, h2, -⟩ | ⟨h1, h2, h3, -⟩
    · exact Or.inl ⟨h1, h2⟩
    · exact Or.inr ⟨h1, h2, h3⟩
  · exact (evaluate_reject db o c hc hacc (by simpa using happ)).2

/-- The result of `do_apply` is decided by lines 84-111. -/
theorem do_apply_result (db : database) (o : music_contract_approve_operation)
    (c : music_contract_object)
    (hc : db.get_music_contract o.producer o.contract_id = Except.ok c) :
    (do_apply db o).1 =
      (match set_approval db o c with
        | Except.error e => Except.error e
        | Except.ok _ => Except.ok ()) := by
  unfold do_apply
  simp only [hc]
  cases set_approval db o c with
  | error e => rfl
  | ok r => dsimp only; split_ifs <;> rfl

/-- The assertion of line 73 fails only when the deadline lies before the head block
time. -/
theorem deadline_assert (db : database) (o : music_contract_approve_operation)
    (c : music_contract_object)
    (hc : db.get_music_contract o.producer o.contract_id = Except.ok c)
    (h : (evaluate db o).1 = Except.error (fc_exception.assert_failed 73)) :
    c.ratification_deadline < db.head_block_time := by
  by_contra hlt
  have hle : db.head_block_time ≤ c.ratification_deadline := Nat.le_of_not_lt hlt
  unfold evaluate at h
  cases he : do_evaluate db o with
  | error e =>
    simp only [he] at h
    cases h
    simp only [do_evaluate, hc, bind, Except.bind, FC_ASSERT, pure, Except.pure] at he
    by_cases h1 : c.musician = o.musician
    · by_cases h2 : c.agent = o.agent
      · simp [h1, h2, hle] at he
      · simp [h1, h2] at he
    · simp [h1] at he
  | ok u =>
    simp only [he] at h
    rw [do_apply_result db o c hc] at h
    cases hs : set_approval db o c with
    | ok r => simp [hs] at h
    | error e =>
      simp only [hs, Except.error.injEq] at h
      subst h
      rw [set_approval_eq] at hs
      split_ifs at hs <;> simp at hs

end music_contract_approve_evaluator

/-! ## Open: the stored parties -/

/-- C11: the transfer of account 5 that opens contract 1 on the empty store is accepted
and creates the object with identity 0, but the object stores the producer 0, the
default value, since the initializer never assigns `ctr.producer`; the lookup by
(5, 1) right afterwards finds nothing.  When account 6 opens a contract with the same
identifier next, the transfer is refused: the new object would sit under the key (0, 1)
of the unique index `by_producer_id`, where the object of account 5 sits already; the
store keeps the one object, and the lookup by (6, 1) finds nothing either. -/
theorem transfer_does_not_store_producer :
    (music_contract_transfer_evaluator.evaluate rich_db (open_by 5)).1 = Except.ok 0 ∧
    (music_contract_transfer_evaluator.evaluate rich_db (open_by 5)).2.contracts
      = [pending_record] ∧
    pending_record.producer = 0 ∧
    (music_contract_transfer_evaluator.evaluate rich_db (open_by 5)).2.get_music_contract 5 1
      = Except.error fc_exception.not_found ∧
    (music_contract_transfer_evaluator.do_evaluate
        (music_contract_transfer_evaluator.evaluate rich_db (open_by 5)).2
        (open_by 6)) = Except.ok () ∧
    (music_contract_transfer_evaluator.evaluate
        (music_contract_transfer_evaluator.evaluate rich_db (open_by 5)).2
        (open_by 6)).1 = Except.error fc_exception.uniqueness_violated ∧
    (music_contract_transfer_evaluator.evaluate
        (music_contract_transfer_evaluator.evaluate rich_db (open_by 5)).2
        (open_by 6)).2.contracts = [pending_record] ∧
    (music_contract_transfer_evaluator.evaluate
        (music_contract_transfer_evaluator.evaluate rich_db (open_by 5)).2
        (open_by 6)).2.get_music_contract 6 1
      = Except.error fc_exception.not_found :=
  ⟨rfl, rfl, rfl, rfl, rfl, rfl, rfl, rfl⟩

/-! ## Approve -/

/-- C12: an accepted approve with `approve = false`, addressed to the record `c`, comes
from the musician or the agent whose own flag is not set (whatever the other flag is);
it credits the producer with exactly `c.amount` and `c.pending_fee`, changes no other
balance, and removes the record, so that the lookup by the same key fails afterwards. -/
theorem approve_reject_refunds (db : database) (o : music_contract_approve_operation)
    (c : music_contract_object) (hu : db.by_producer_id_unique)
    (hc : db.get_music_contract o.producer o.contract_id = Except.ok c)
    (hacc : (music_contract_approve_evaluator.evaluate db o).1 = Except.ok ())
    (hrej : o.approve = false) :
    ((o.who = c.musician ∧ c.signed = false) ∨
      (o.who = c.agent ∧ c.agent_approved = false)) ∧
    (∀ acc a, (music_contract_approve_evaluator.evaluate db o).2.balances acc a
      = db.balances acc a
        + (if acc = c.producer ∧ a = c.amount.asset_id then c.amount.amount else 0)
        + (if acc = c.producer ∧ a = c.pending_fee.asset_id
            then c.pending_fee.amount else 0)) ∧
    (music_contract_approve_evaluator.evaluate db o).2.contracts
      = db.contracts.filter (fun x => decide (x.id ≠ c.id)) ∧
    (music_contract_approve_evaluator.evaluate db o).2.get_music_contract
        o.producer o.contract_id
      = Except.error fc_exception.not_found := by
  obtain ⟨heq, hwho⟩ := music_contract_approve_evaluator.evaluate_reject db o c hc hacc hrej
  obtain ⟨c1, hc1, hm, ha, -⟩ := (music_contract_approve_evaluator.approve_evaluate_ok_iff db o).1
    (music_contract_approve_evaluator.do_evaluate_of_accepted db o hacc)
  rw [hc] at hc1
  cases hc1
  obtain ⟨hp, -, -⟩ := database.get_music_contract_key db _ _ c hc
  rw [heq]
  refine ⟨?_, ?_, rfl, ?_⟩
  · rcases hwho with h | h
    · exact Or.inl ⟨by rw [hm]; exact h.1, h.2⟩
    · exact Or.inr ⟨by rw [ha]; exact h.2.1, h.2.2⟩
  · intro acc a
    rw [database.balances_remove, database.balances_adjust_balance,
      database.balances_adjust_balance, hp]
  · exact database.get_music_contract_remove _ c _ _ hu hc

/-- Witness for C12: the record holds 100 with a pending fee of 5 and nobody has
approved; the musician rejects, the producer (account 0) receives 105 and the lookup
fails. -/
theorem approve_reject_refunds_witness :
    pending_db.by_producer_id_unique ∧
    pending_db.get_music_contract 0 1 = Except.ok pending_record ∧
    (music_contract_approve_evaluator.evaluate pending_db (approve_op 1 false)).1
      = Except.ok () ∧
    (music_contract_approve_evaluator.evaluate pending_db (approve_op 1 false)).2.balances 0 0
      = pending_db.balances 0 0 + 100 + 5 ∧
    (music_contract_approve_evaluator.evaluate pending_db
        (approve_op 1 false)).2.get_music_contract 0 1
      = Except.error fc_exception.not_found :=
  ⟨List.nodup_singleton _, rfl, rfl,
   (approve_reject_refunds pending_db (approve_op 1 false) pending_record
      (List.nodup_singleton _) rfl rfl rfl).2.1 0 0,
   (approve_reject_refunds pending_db (approve_op 1 false) pending_record
      (List.nodup_singleton _) rfl rfl rfl).2.2.2⟩

/-- C13 fails on the code when the agent of the record is its musician too: the
transfer naming account 1 as musician and as agent is accepted; the approval by
account 1, the agent of the record, is accepted, and afterwards `signed` is true and
`agent_approved` is still false: the branch of the musician has run. -/
theorem approve_by_agent_sets_signed :
    (music_contract_transfer_evaluator.evaluate funded_db (open_with_agent 1)).1
      = Except.ok 0 ∧
    (musician_agent_db.get_music_contract 0 1).map
        (fun c => (c.musician, c.agent, c.signed, c.agent_approved))
      = Except.ok (1, 1, false, false) ∧
    approve_by_musician_agent.who = 1 ∧
    approve_by_musician_agent.approve = true ∧
    (music_contract_approve_evaluator.evaluate musician_agent_db
        approve_by_musician_agent).1 = Except.ok () ∧
    ((music_contract_approve_evaluator.evaluate musician_agent_db
        approve_by_musician_agent).2.get_music_contract 0 1).map
        (fun c => (c.signed, c.agent_approved))
      = Except.ok (true, false) :=
  ⟨rfl, rfl, rfl, rfl, rfl, rfl⟩

/-- C13 as amended: after an accepted approve with `approve = true` addressed to the
record `c`, the lookup finds a record `c2` such that: if `who` is the musician (be it
the agent too), `signed` is true and `agent_approved` is as before; if `who` is the
agent, an account other than the musician, `agent_approved` is true and `signed` is as
before; and when the other flag is still false, the pending fee and every balance are
as before (indeed the record differs from `c` in the set flag only). -/
theorem approve_sets_flag (db : database) (o : music_contract_approve_operation)
    (c : music_contract_object)
    (hc : db.get_music_contract o.producer o.contract_id = Except.ok c)
    (hacc : (music_contract_approve_evaluator.evaluate db o).1 = Except.ok ())
    (happ : o.approve = true) :
    (o.who = c.musician →
      ∃ c2, (music_contract_approve_evaluator.evaluate db o).2.get_music_contract
            o.producer o.contract_id = Except.ok c2 ∧
        c2.signed = true ∧ c2.agent_approved = c.agent_approved ∧
        (c.agent_approved = false →
          c2 = { c with signed := true } ∧ c2.pending_fee = c.pending_fee ∧
          (music_contract_approve_evaluator.evaluate db o).2.balances = db.balances)) ∧
    (o.who = c.agent → c.musician ≠ c.agent →
      ∃ c2, (music_contract_approve_evaluator.evaluate db o).2.get_music_contract
            o.producer o.contract_id = Except.ok c2 ∧
        c2.agent_approved = true ∧ c2.signed = c.signed ∧
        (c.signed = false →
          c2 = { c with agent_approved := true } ∧ c2.pending_fee = c.pending_fee ∧
          (music_contract_approve_evaluator.evaluate db o).2.balances = db.balances)) := by
  obtain ⟨c1, hc1, hm, ha, -⟩ := (music_contract_approve_evaluator.approve_evaluate_ok_iff db o).1
    (music_contract_approve_evaluator.do_evaluate_of_accepted db o hacc)
  rw [hc] at hc1
  cases hc1
  have hout := music_contract_approve_evaluator.approve_outcome db o c hc hacc happ
  constructor
  · intro hwho
    rcases hout with ⟨-, -, hf, ht⟩ | ⟨hne, -⟩
    · by_cases hag : c.agent_approved = true
      · obtain ⟨hl, -⟩ := ht hag
        exact ⟨_, hl, rfl, rfl, fun h => absurd (hag.symm.trans h) (by simp)⟩
      · obtain ⟨hl, hb⟩ := hf (by simpa using hag)
        exact ⟨_, hl, rfl, rfl, fun _ => ⟨rfl, rfl, hb⟩⟩
    · exact absurd (hwho.trans hm) hne
  · intro hwho hdist
    rcases hout with ⟨he, -⟩ | ⟨-, -, -, hf, ht⟩
    · exact absurd ((hm.trans he.symm).trans (hwho.trans rfl)) hdist
    · by_cases hsg : c.signed = true
      · obtain ⟨hl, -⟩ := ht hsg
        exact ⟨_, hl, rfl, rfl, fun h => absurd (hsg.symm.trans h) (by simp)⟩
      · obtain ⟨hl, hb⟩ := hf (by simpa using hsg)
        exact ⟨_, hl, rfl, rfl, fun _ => ⟨rfl, rfl, hb⟩⟩

/-- Witness for C13 as amended: on the record nobody has approved, the approval of the musician
(account 1) sets `signed` and leaves the pending fee of 5 and the balance of the agent
as they were. -/
theorem approve_sets_flag_witness :
    pending_db.get_music_contract 0 1 = Except.ok pending_record ∧
    (music_contract_approve_evaluator.evaluate pending_db (approve_op 1 true)).1
      = Except.ok () ∧
    (∃ c2, (music_contract_approve_evaluator.evaluate pending_db
          (approve_op 1 true)).2.get_music_contract 0 1 = Except.ok c2 ∧
        c2.signed = true ∧ c2.agent_approved = false ∧
        (pending_record.agent_approved = false →
          c2 = { pending_record with signed := true } ∧
          c2.pending_fee = pending_record.pending_fee ∧
          (music_contract_approve_evaluator.evaluate pending_db
            (approve_op 1 true)).2.balances = pending_db.balances)) :=
  ⟨rfl, rfl,
   (approve_sets_flag pending_db (approve_op 1 true) pending_record rfl rfl rfl).1 rfl⟩

/-- C15: an approve fails and leaves the database (store and balances) as it was when
no record is found under (`producer`, `contract_id`); and, for the record `c` found,
when `who` is neither its musician nor its agent, when `who` is the musician and
`signed` is set, when `who` is the agent (an account other than the musician) and
`agent_approved` is set, whatever `approve` is, when the musician or the agent of the
operation is not that of the record, or when the head block time is past the
ratification deadline.  At a head block time equal to the deadline the assertion of
line 73 does not fail. -/
theorem approve_failure_cases (db : database) (o : music_contract_approve_operation) :
    (db.get_music_contract o.producer o.contract_id = Except.error fc_exception.not_found →
      music_contract_approve_evaluator.evaluate db o
        = (Except.error fc_exception.not_found, db)) ∧
    (∀ c, db.get_music_contract o.producer o.contract_id = Except.ok c →
      ((o.who ≠ c.musician ∧ o.who ≠ c.agent) ∨
        (o.who = c.musician ∧ c.signed = true) ∨
        (o.who = c.agent ∧ c.musician ≠ c.agent ∧ c.agent_approved = true) ∨
        o.musician ≠ c.musician ∨ o.agent ≠ c.agent ∨
        c.ratification_deadline < db.head_block_time) →
      ∃ e, music_contract_approve_evaluator.evaluate db o = (Except.error e, db)) ∧
    (∀ c, db.get_music_contract o.producer o.contract_id = Except.ok c →
      db.head_block_time = c.ratification_deadline →
      (music_contract_approve_evaluator.evaluate db o).1
        ≠ Except.error (fc_exception.assert_failed 73)) := by
  refine ⟨?_, ?_, ?_⟩
  · intro h
    simp [music_contract_approve_evaluator.evaluate,
      music_contract_approve_evaluator.do_evaluate, h, bind, Except.bind]
  · intro c hc hbad
    apply music_contract_approve_evaluator.approve_of_not_ok
    intro hacc
    obtain ⟨hm, ha, ht, hw⟩ :=
      music_contract_approve_evaluator.approve_accepted_facts db o c hc hacc
    rcases hbad with h | h | h | h | h | h
    · rcases hw with hw | hw
      · exact h.1 (hw.1.trans hm.symm)
      · exact h.2 (hw.2.1.trans ha.symm)
    · rcases hw with hw | hw
      · rw [h.2] at hw; exact absurd hw.2 (by simp)
      · exact hw.1 (h.1.trans hm)
    · rcases hw with hw | hw
      · exact h.2.1 (hm.trans (hw.1.symm.trans h.1))
      · rw [h.2.2] at hw; exact absurd hw.2.2 (by simp)
    · exact h hm.symm
    · exact h ha.symm
    · exact absurd ht (Nat.not_le.mpr h)
  · intro c hc ht h73
    have := music_contract_approve_evaluator.deadline_assert db o c hc h73
    rw [ht] at this
    exact lt_irrefl _ this

/-- Witness for C15: on the store with contract 1: an approve for contract 2 finds no
record; one by the producer (account 0), one by the musician who has approved already
(also as a rejection), one naming another agent, and one after the deadline all fail
and leave the store as it was; at the very time of the deadline the musician is
accepted. -/
theorem approve_failure_cases_witness :
    music_contract_approve_evaluator.evaluate pending_db
        { approve_op 1 true with contract_id := 2 }
      = (Except.error fc_exception.not_found, pending_db) ∧
    (∃ e, music_contract_approve_evaluator.evaluate pending_db (approve_op 0 true)
      = (Except.error e, pending_db)) ∧
    (∃ e, music_contract_approve_evaluator.evaluate half_approved_db (approve_op 1 true)
      = (Except.error e, half_approved_db)) ∧
    (∃ e, music_contract_approve_evaluator.evaluate half_approved_db (approve_op 1 false)
      = (Except.error e, half_approved_db)) ∧
    (∃ e, music_contract_approve_evaluator.evaluate pending_db
        { approve_op 1 true with agent := 7 } = (Except.error e, pending_db)) ∧
    (∃ e, music_contract_approve_evaluator.evaluate late_db (approve_op 1 true)
      = (Except.error e, late_db)) ∧
    (music_contract_approve_evaluator.evaluate deadline_db (approve_op 1 true)).1
      ≠ Except.error (fc_exception.assert_failed 73) ∧
    (music_contract_approve_evaluator.evaluate deadline_db (approve_op 1 true)).1
      = Except.ok () :=
  ⟨(approve_failure_cases pending_db { approve_op 1 true with contract_id := 2 }).1 rfl,
   (approve_failure_cases pending_db (approve_op 0 true)).2.1 pending_record rfl
     (Or.inl ⟨by decide, by decide⟩),
   (approve_failure_cases half_approved_db (approve_op 1 true)).2.1 half_approved_record rfl
     (Or.inr (Or.inl ⟨rfl, rfl⟩)),
   (approve_failure_cases half_approved_db (approve_op 1 false)).2.1 half_approved_record rfl
     (Or.inr (Or.inl ⟨rfl, rfl⟩)),
   (approve_failure_cases pending_db { approve_op 1 true with agent := 7 }).2.1
     pending_record rfl (Or.inr (Or.inr (Or.inr (Or.inr (Or.inl (by decide)))))),
   (approve_failure_cases late_db (approve_op 1 true)).2.1 pending_record rfl
     (Or.inr (Or.inr (Or.inr (Or.inr (Or.inr (by decide)))))),
   (approve_failure_cases deadline_db (approve_op 1 true)).2.2 pending_record rfl rfl,
   rfl⟩

/-! ## Lemmas on the dispute evaluator -/

namespace music_contract_dispute_evaluator

theorem dispute_evaluate_ok_iff (tb : account_id_type → Bool) (db : database)
    (o : music_contract_dispute_operation) :
    do_evaluate tb db o = Except.ok () ↔
      ∃ c, db.get_music_contract o.producer o.contract_id = Except.ok c ∧
        tb c.musician = true ∧ c.agent_approved = true ∧ c.disputed = false ∧
        c.musician = o.musician ∧ c.agent = o.agent := by
  unfold do_evaluate
  cases hc : db.get_music_contract o.producer o.contract_id with
  | error e => simp [bind, Except.bind]
  | ok c =>
    simp only [bind, Except.bind, FC_ASSERT, pure, Except.pure]
    constructor
    · intro h
      refine ⟨c, rfl, ?_⟩
      split_ifs at h
      simp_all
    · rintro ⟨c1, hc1, h1, h2, h3, h4, h5⟩
      cases hc1
      split_ifs <;> simp_all

/-- The outcome of a dispute whose evaluation passed. -/
theorem dispute_of_ok (hf : time_point_sec) (tb : account_id_type → Bool) (db : database)
    (o : music_contract_dispute_operation) (c : music_contract_object)
    (hc : db.get_music_contract o.producer o.contract_id = Except.ok c)
    (he : do_evaluate tb db o = Except.ok ()) :
    evaluate hf tb db o =
      if hf < db.head_block_time then
        (Except.ok (), db.modify c (fun ctr => { ctr with disputed := true }))
      else (Except.error (fc_exception.assert_failed 149), db) := by
  simp only [evaluate, he, do_apply, FC_ASSERT, hc, gt_iff_lt]
  split_ifs <;> simp_all

/-- A failed dispute leaves the database as it was. -/
theorem dispute_of_not_ok (hf : time_point_sec) (tb : account_id_type → Bool)
    (db : database) (o : music_contract_dispute_operation)
    (h : (evaluate hf tb db o).1 ≠ Except.ok ()) :
    ∃ e, evaluate hf tb db o = (Except.error e, db) := by
  unfold evaluate at h ⊢
  cases he : do_evaluate tb db o with
  | error e => exact ⟨e, rfl⟩
  | ok u =>
    obtain ⟨c, hc, -⟩ := (dispute_evaluate_ok_iff tb db o).1 he
    simp only [he, do_apply, FC_ASSERT, hc] at h ⊢
    split_ifs at h ⊢
    · exact absurd rfl h
    · exact ⟨_, rfl⟩

/-- What the acceptance of a dispute says, and the record afterwards. -/
theorem dispute_accepted_facts (hf : time_point_sec) (tb : account_id_type → Bool) (db : database)
    (o : music_contract_dispute_operation) (c : music_contract_object)
    (hc : db.get_music_contract o.producer o.contract_id = Except.ok c)
    (hacc : (evaluate hf tb db o).1 = Except.ok ()) :
    tb c.musician = true ∧ c.agent_approved = true ∧ c.disputed = false ∧
    c.musician = o.musician ∧ c.agent = o.agent ∧ hf < db.head_block_time ∧
    evaluate hf tb db o
      = (Except.ok (), db.modify c (fun ctr => { ctr with disputed := true })) := by
  have he : do_evaluate tb db o = Except.ok () := by
    unfold evaluate at hacc
    cases he : do_evaluate tb db o with
    | error e => simp [he] at hacc
    | ok u => rfl
  obtain ⟨c1, hc1, h1, h2, h3, h4, h5⟩ := (dispute_evaluate_ok_iff tb db o).1 he
  rw [hc] at hc1
  cases hc1
  have heq := dispute_of_ok hf tb db o c hc he
  by_cases ht : hf < db.head_block_time
  · rw [if_pos ht] at heq
    exact ⟨h1, h2, h3, h4, h5, ht, heq⟩
  · rw [if_neg ht] at heq
    rw [heq] at hacc
    simp at hacc

end music_contract_dispute_evaluator

/-! ## Dispute -/

/-- C16: the record has the approval of the agent only (`signed` is false).  Whatever
the conversion of line 138, `do_evaluate` returns for it what it returns for the same
record with `signed` set, since line 138 reads `c.musician`, not `signed`; and with an
account identifier read as true when it is not zero, the dispute raised by the
musician (account 1) is accepted and sets `disputed` on the record lacking the
approval of the musician. -/
theorem dispute_ignores_musician_approval :
    (∀ tb : account_id_type → Bool,
      music_contract_dispute_evaluator.do_evaluate tb agent_approved_db (dispute_op 1)
        = music_contract_dispute_evaluator.do_evaluate tb signed_agent_approved_db
            (dispute_op 1)) ∧
    agent_approved_record.signed = false ∧
    agent_approved_db.get_music_contract 0 1 = Except.ok agent_approved_record ∧
    (music_contract_dispute_evaluator.evaluate 0 account_id_nonzero agent_approved_db
        (dispute_op 1)).1 = Except.ok () ∧
    (music_contract_dispute_evaluator.evaluate 0 account_id_nonzero agent_approved_db
        (dispute_op 1)).2.contracts = [disputed_unsigned_record] ∧
    disputed_unsigned_record.disputed = true ∧ disputed_unsigned_record.signed = false :=
  ⟨fun _ => rfl, rfl, rfl, rfl, rfl, rfl, rfl⟩

/-- C17 fails on the code: on the fully approved, undisputed record (musician 1,
agent 2) the dispute raised by account 9, and the one raised by the producer
(account 0), are accepted and set `disputed`. -/
theorem dispute_by_other_account_accepted :
    approved_db.get_music_contract 0 1 = Except.ok approved_record ∧
    approved_record.is_approved = true ∧ approved_record.disputed = false ∧
    (dispute_op 9).who ≠ approved_record.musician ∧
    (dispute_op 9).who ≠ approved_record.agent ∧
    (music_contract_dispute_evaluator.evaluate 0 account_id_nonzero approved_db
        (dispute_op 9)).1 = Except.ok () ∧
    (music_contract_dispute_evaluator.evaluate 0 account_id_nonzero approved_db
        (dispute_op 9)).2.contracts = [disputed_record] ∧
    (music_contract_dispute_evaluator.evaluate 0 account_id_nonzero approved_db
        (dispute_op 0)).1 = Except.ok () ∧
    disputed_record.disputed = true :=
  ⟨rfl, rfl, rfl, by decide, by decide, rfl, rfl, rfl, rfl⟩

/-- C17 as amended: the dispute evaluator does not read `who`: disputes that differ in
`who` only have the same outcome.  So on a record that passes line 138, is not
disputed and has the musician and the agent of the operation, after the hardfork time,
the dispute of any account is accepted and sets `disputed`; and a dispute whose
musician or agent is not that of the record fails and leaves the database as it
was. -/
theorem dispute_independent_of_who (hf : time_point_sec) (tb : account_id_type → Bool)
    (db : database) (o : music_contract_dispute_operation) :
    (∀ w, music_contract_dispute_evaluator.evaluate hf tb db { o with who := w }
      = music_contract_dispute_evaluator.evaluate hf tb db o) ∧
    (∀ c, db.get_music_contract o.producer o.contract_id = Except.ok c →
      tb c.musician = true → c.agent_approved = true → c.disputed = false →
      c.musician = o.musician → c.agent = o.agent → hf < db.head_block_time →
      (music_contract_dispute_evaluator.evaluate hf tb db o).1 = Except.ok () ∧
      (music_contract_dispute_evaluator.evaluate hf tb db o).2.get_music_contract
          o.producer o.contract_id = Except.ok { c with disputed := true }) ∧
    (∀ c, db.get_music_contract o.producer o.contract_id = Except.ok c →
      (c.musician ≠ o.musician ∨ c.agent ≠ o.agent) →
      ∃ e, music_contract_dispute_evaluator.evaluate hf tb db o = (Except.error e, db)) := by
  refine ⟨fun _ => rfl, ?_, ?_⟩
  · intro c hc h1 h2 h3 h4 h5 h6
    have he : music_contract_dispute_evaluator.do_evaluate tb db o = Except.ok () :=
      (music_contract_dispute_evaluator.dispute_evaluate_ok_iff tb db o).2
        ⟨c, hc, h1, h2, h3, h4, h5⟩
    rw [music_contract_dispute_evaluator.dispute_of_ok hf tb db o c hc he, if_pos h6]
    refine ⟨rfl, ?_⟩
    refine Eq.trans (database.get_music_contract_modify db c c _ ?_ _ _ hc) ?_
    · intro x; exact ⟨rfl, rfl⟩
    · simp
  · intro c hc hbad
    apply music_contract_dispute_evaluator.dispute_of_not_ok
    intro hacc
    obtain ⟨-, -, -, h4, h5, -⟩ :=
      music_contract_dispute_evaluator.dispute_accepted_facts hf tb db o c hc hacc
    rcases hbad with h | h
    · exact h h4
    · exact h h5

/-- Witness for C17 as amended: account 9 disputes the approved record and the record
is disputed afterwards; a dispute naming agent 7 fails and leaves the store as it
was. -/
theorem dispute_independent_of_who_witness :
    (music_contract_dispute_evaluator.evaluate 0 account_id_nonzero approved_db
        (dispute_op 9)).1 = Except.ok () ∧
    (music_contract_dispute_evaluator.evaluate 0 account_id_nonzero approved_db
        (dispute_op 9)).2.get_music_contract 0 1 = Except.ok disputed_record ∧
    (∃ e, music_contract_dispute_evaluator.evaluate 0 account_id_nonzero approved_db
        { dispute_op 9 with agent := 7 } = (Except.error e, approved_db)) :=
  ⟨((dispute_independent_of_who 0 account_id_nonzero approved_db (dispute_op 9)).2.1
      approved_record rfl rfl rfl rfl rfl rfl (by decide)).1,
   ((dispute_independent_of_who 0 account_id_nonzero approved_db (dispute_op 9)).2.1
      approved_record rfl rfl rfl rfl rfl rfl (by decide)).2,
   (dispute_independent_of_who 0 account_id_nonzero approved_db
      { dispute_op 9 with agent := 7 }).2.2 approved_record rfl (Or.inr (by decide))⟩

/-! ## Failure leaves no trace -/

theorem approve_do_apply_of_error (db : database) (o : music_contract_approve_operation)
    (e : fc_exception) (h : (music_contract_approve_evaluator.do_apply db o).1
      = Except.error e) :
    (music_contract_approve_evaluator.do_apply db o).2 = db := by
  unfold music_contract_approve_evaluator.do_apply at h ⊢
  cases hc : db.get_music_contract o.producer o.contract_id with
  | error e1 => rfl
  | ok c =>
    simp only [hc] at h ⊢
    cases hs : music_contract_approve_evaluator.set_approval db o c with
    | error e1 => rfl
    | ok r =>
      exfalso
      simp only [hs] at h
      split_ifs at h

theorem dispute_do_apply_of_error (hf : time_point_sec) (db : database)
    (o : music_contract_dispute_operation) (e : fc_exception)
    (h : (music_contract_dispute_evaluator.do_apply hf db o).1 = Except.error e) :
    (music_contract_dispute_evaluator.do_apply hf db o).2 = db := by
  unfold music_contract_dispute_evaluator.do_apply at h ⊢
  cases ha : FC_ASSERT (decide (db.head_block_time > hf)) 149 with
  | error e1 => rfl
  | ok u =>
    simp only [ha] at h ⊢
    cases hc : db.get_music_contract o.producer o.contract_id with
    | error e1 => rfl
    | ok c => simp [hc] at h

theorem release_do_apply_of_error (db : database) (o : music_contract_release_operation)
    (e : fc_exception) (h : (music_contract_release_evaluator.do_apply db o).1
      = Except.error e) :
    (music_contract_release_evaluator.do_apply db o).2 = db := by
  unfold music_contract_release_evaluator.do_apply at h ⊢
  cases hc : db.get_music_contract o.producer o.contract_id with
  | error e1 => rfl
  | ok c =>
    exfalso
    simp only [hc] at h
    split_ifs at h

/-- C18 fails on the code for the transfer: on the store that holds contract 1 of the
producer, the same transfer passes `do_evaluate` and fails in `do_apply`, where `create`
(line 53) refuses the key of the new object; by then lines 47, 48 and 51 have debited
the producer, who owned 895 and is left with 790, and credited the agent, who owned 5
and is left with 10. -/
theorem transfer_failure_keeps_adjustments :
    music_contract_transfer_evaluator.do_evaluate opened_db open_op = Except.ok () ∧
    (music_contract_transfer_evaluator.evaluate opened_db open_op).1
      = Except.error fc_exception.uniqueness_violated ∧
    opened_db.balances 0 0 = 895 ∧
    (music_contract_transfer_evaluator.evaluate opened_db open_op).2.balances 0 0 = 790 ∧
    opened_db.balances 2 0 = 5 ∧
    (music_contract_transfer_evaluator.evaluate opened_db open_op).2.balances 2 0 = 10 :=
  ⟨rfl, rfl, rfl, rfl, rfl, rfl⟩

/-- C18 as amended: approve, dispute and release are all-or-nothing: when the evaluator
(`do_evaluate` followed by `do_apply`) fails, and likewise when `do_apply` on its own
fails, the database it leaves, store and balances, is the one it started from.  A
transfer whose `do_evaluate` fails leaves the database as it was.  The `do_apply` of a
transfer fails only when `create` refuses the new object for a clash of unique keys,
and it succeeds when there is no clash; when it fails, the store of contracts is the
one it started from, and the balances are already adjusted by lines 46-51: the agent
fee, when positive, moved from the producer to the agent, and the amount debited from
the producer. -/
theorem evaluators_all_or_nothing (hf : time_point_sec) (tb : account_id_type → Bool)
    (db : database) :
    (∀ o e, music_contract_transfer_evaluator.do_evaluate db o = Except.error e →
      music_contract_transfer_evaluator.evaluate db o = (Except.error e, db)) ∧
    (∀ o, music_contract_transfer_evaluator.do_evaluate db o = Except.ok () →
      music_contract_transfer_evaluator.evaluate db o
        = music_contract_transfer_evaluator.do_apply db o) ∧
    (∀ o e, (music_contract_transfer_evaluator.do_apply db o).1 = Except.error e →
      e = fc_exception.uniqueness_violated ∧
      db.contracts.any (fun x => database.unique_key_clash x
        { music_contract_transfer_evaluator.init_contract o {} with id := db.next_id })
        = true ∧
      (music_contract_transfer_evaluator.do_apply db o).2.contracts = db.contracts ∧
      (music_contract_transfer_evaluator.do_apply db o).2.next_id = db.next_id ∧
      (music_contract_transfer_evaluator.do_apply db o).2.head_block_time
        = db.head_block_time ∧
      ∀ acc a, (music_contract_transfer_evaluator.do_apply db o).2.balances acc a
        = db.balances acc a
          + (if 0 < o.agent_fee.amount ∧ acc = o.producer ∧ a = o.agent_fee.asset_id
              then -o.agent_fee.amount else 0)
          + (if 0 < o.agent_fee.amount ∧ acc = o.agent ∧ a = o.agent_fee.asset_id
              then o.agent_fee.amount else 0)
          + (if acc = o.producer ∧ a = o.amount.asset_id then -o.amount.amount else 0)) ∧
    (∀ o, db.contracts.any (fun x => database.unique_key_clash x
        { music_contract_transfer_evaluator.init_contract o {} with id := db.next_id })
        = false →
      (music_contract_transfer_evaluator.do_apply db o).1 = Except.ok db.next_id) ∧
    (∀ o e, (music_contract_approve_evaluator.evaluate db o).1 = Except.error e →
      (music_contract_approve_evaluator.evaluate db o).2 = db) ∧
    (∀ o e, (music_contract_dispute_evaluator.evaluate hf tb db o).1 = Except.error e →
      (music_contract_dispute_evaluator.evaluate hf tb db o).2 = db) ∧
    (∀ o e, (music_contract_release_evaluator.evaluate db o).1 = Except.error e →
      (music_contract_release_evaluator.evaluate db o).2 = db) ∧
    (∀ o e, (music_contract_approve_evaluator.do_apply db o).1 = Except.error e →
      (music_contract_approve_evaluator.do_apply db o).2 = db) ∧
    (∀ o e, (music_contract_dispute_evaluator.do_apply hf db o).1 = Except.error e →
      (music_contract_dispute_evaluator.do_apply hf db o).2 = db) ∧
    (∀ o e, (music_contract_release_evaluator.do_apply db o).1 = Except.error e →
      (music_contract_release_evaluator.do_apply db o).2 = db) := by
  refine ⟨?_, ?_, ?_, ?_, ?_, ?_, ?_, approve_do_apply_of_error db,
    dispute_do_apply_of_error hf db, release_do_apply_of_error db⟩
  · intro o e he
    simp only [music_contract_transfer_evaluator.evaluate, he]
  · intro o he
    simp only [music_contract_transfer_evaluator.evaluate, he]
  · intro o e h
    rcases transfer_do_apply_eq db o with ⟨hk, heq⟩ | ⟨hk, heq⟩
    · rw [heq] at h ⊢
      simp only [Except.error.injEq] at h
      refine ⟨h.symm, hk, ?_, ?_, ?_, fun acc a => transfer_balances db o acc a⟩
      · show (ite _ _ _ : database).contracts = _
        split_ifs <;> rfl
      · show (ite _ _ _ : database).next_id = _
        split_ifs <;> rfl
      · show (ite _ _ _ : database).head_block_time = _
        split_ifs <;> rfl
    · rw [heq] at h
      simp at h
  · intro o hk
    rcases transfer_do_apply_eq db o with ⟨hk1, -⟩ | ⟨-, heq⟩
    · rw [hk] at hk1; simp at hk1
    · rw [heq]
  · intro o e h
    unfold music_contract_approve_evaluator.evaluate at h ⊢
    cases he : music_contract_approve_evaluator.do_evaluate db o with
    | error e1 => rfl
    | ok u =>
      simp only [he] at h ⊢
      exact approve_do_apply_of_error db o e h
  · intro o e h
    unfold music_contract_dispute_evaluator.evaluate at h ⊢
    cases he : music_contract_dispute_evaluator.do_evaluate tb db o with
    | error e1 => rfl
    | ok u =>
      simp only [he] at h ⊢
      exact dispute_do_apply_of_error hf db o e h
  · intro o e h
    unfold music_contract_release_evaluator.evaluate at h ⊢
    cases he : music_contract_release_evaluator.do_evaluate db o with
    | error e1 => rfl
    | ok u =>
      simp only [he] at h ⊢
      exact release_do_apply_of_error db o e h

/-- Witness for C18 as amended: the second approval by the musician fails with the
assertion of line 86 inside `do_apply`, and the store with the half approved record is
left as it was; a dispute before the hardfork time 5000 fails in `do_apply` likewise;
and the transfer repeated on the store that holds its contract fails on the unique key
with the contracts as they were. -/
theorem evaluators_all_or_nothing_witness :
    (music_contract_approve_evaluator.evaluate half_approved_db (approve_op 1 true)).1
      = Except.error (fc_exception.assert_failed 86) ∧
    (music_contract_approve_evaluator.evaluate half_approved_db (approve_op 1 true)).2
      = half_approved_db ∧
    (music_contract_dispute_evaluator.evaluate 5000 account_id_nonzero approved_db
      (dispute_op 1)).1 = Except.error (fc_exception.assert_failed 149) ∧
    (music_contract_dispute_evaluator.evaluate 5000 account_id_nonzero approved_db
      (dispute_op 1)).2 = approved_db ∧
    (music_contract_transfer_evaluator.do_apply opened_db open_op).1
      = Except.error fc_exception.uniqueness_violated ∧
    (music_contract_transfer_evaluator.do_apply opened_db open_op).2.contracts
      = opened_db.contracts :=
  ⟨rfl,
   (evaluators_all_or_nothing 0 account_id_nonzero half_approved_db).2.2.2.2.1
     (approve_op 1 true) (fc_exception.assert_failed 86) rfl,
   rfl,
   (evaluators_all_or_nothing 5000 account_id_nonzero approved_db).2.2.2.2.2.1
     (dispute_op 1) (fc_exception.assert_failed 149) rfl,
   rfl,
   ((evaluators_all_or_nothing 0 account_id_nonzero opened_db).2.2.1
     open_op fc_exception.uniqueness_violated rfl).2.2.1⟩

/-! ## The effect of an accepted operation on the store -/

theorem music_contract_object.evolves_refl (x : music_contract_object) : x.evolves x :=
  ⟨rfl, rfl, rfl, fun h => h, fun h => h, fun h => h, Or.inl rfl, Or.inl ⟨rfl, rfl⟩⟩

/-- Two updates of the object with identity `i`, one after the other, are one update. -/
theorem map_modify_twice (l : List music_contract_object) (i : object_id_type)
    (m1 m2 : music_contract_object → music_contract_object)
    (h1 : ∀ x, (m1 x).id = x.id) :
    (l.map (fun x => if x.id = i then m1 x else x)).map
        (fun x => if x.id = i then m2 x else x)
      = l.map (fun x => if x.id = i then m2 (m1 x) else x) := by
  rw [List.map_map]
  apply List.map_congr_left
  intro x _
  by_cases hx : x.id = i
  · simp [hx, h1]
  · simp [hx]

/-- In a store with unique identities an object is known by its identity. -/
theorem database.eq_of_id_eq (db : database) (hwf : db.by_id_unique)
    (x c : music_contract_object) (hx : x ∈ db.contracts) (hc : c ∈ db.contracts)
    (h : x.id = c.id) : x = c :=
  List.inj_on_of_nodup_map hwf.1 hx hc h

/-- The store after an update of the object `c` by a mutator `m` that lets `c`
evolve. -/
theorem database.step_of_map (db db2 : database) (hwf : db.by_id_unique)
    (c : music_contract_object) (hc : c ∈ db.contracts)
    (m : music_contract_object → music_contract_object)
    (hid : ∀ x, (m x).id = x.id) (hev : c.evolves (m c))
    (h2 : db2.contracts = db.contracts.map (fun x => if x.id = c.id then m x else x))
    (hn : db2.next_id = db.next_id) :
    db2.by_id_unique ∧ ∀ y ∈ db2.contracts, ∃ x ∈ db.contracts, x.evolves y := by
  have hids : db2.contracts.map (fun c => c.id) = db.contracts.map (fun c => c.id) := by
    rw [h2, List.map_map]
    apply List.map_congr_left
    intro x _
    by_cases hx : x.id = c.id
    · simp [hx, hid]
    · simp [hx]
  refine ⟨⟨by rw [hids]; exact hwf.1, ?_⟩, ?_⟩
  · intro y hy
    have : y.id ∈ db2.contracts.map (fun c => c.id) := List.mem_map_of_mem _ hy
    rw [hids, List.mem_map] at this
    obtain ⟨x, hx, hxy⟩ := this
    rw [hn, ← hxy]
    exact hwf.2 x hx
  · intro y hy
    rw [h2, List.mem_map] at hy
    obtain ⟨x, hx, hxy⟩ := hy
    refine ⟨x, hx, ?_⟩
    by_cases hxc : x.id = c.id
    · have : x = c := db.eq_of_id_eq hwf x c hx hc hxc
      subst this
      simp only [if_true] at hxy
      rw [← hxy]
      exact hev
    · simp only [hxc, if_false] at hxy
      rw [← hxy]
      exact x.evolves_refl

/-- The store after the removal of an object. -/
theorem database.step_of_filter (db db2 : database) (hwf : db.by_id_unique)
    (i : object_id_type)
    (h2 : db2.contracts = db.contracts.filter (fun x => decide (x.id ≠ i)))
    (hn : db2.next_id = db.next_id) :
    db2.by_id_unique ∧ ∀ y ∈ db2.contracts, ∃ x ∈ db.contracts, x.evolves y := by
  refine ⟨⟨?_, ?_⟩, ?_⟩
  · rw [h2]
    exact hwf.1.sublist ((List.filter_sublist _).map _)
  · intro y hy
    rw [h2] at hy
    rw [hn]
    exact hwf.2 y (List.mem_of_mem_filter hy)
  · intro y hy
    rw [h2] at hy
    exact ⟨y, List.mem_of_mem_filter hy, y.evolves_refl⟩

/-- The store after the creation of an object. -/
theorem database.step_of_append (db db2 : database) (hwf : db.by_id_unique)
    (n : music_contract_object) (hnid : n.id = db.next_id)
    (h2 : db2.contracts = db.contracts ++ [n]) (hn : db2.next_id = db.next_id + 1) :
    db2.by_id_unique ∧
      ∀ y ∈ db2.contracts, (∃ x ∈ db.contracts, x.evolves y) ∨ y = n := by
  refine ⟨⟨?_, ?_⟩, ?_⟩
  · rw [h2, List.map_append, List.nodup_append]
    refine ⟨hwf.1, List.nodup_singleton _, ?_⟩
    intro a ha hb
    simp only [List.map_cons, List.map_nil, List.mem_singleton] at hb
    rw [List.mem_map] at ha
    obtain ⟨x, hx, hxa⟩ := ha
    have := hwf.2 x hx
    rw [hxa, hb, hnid] at this
    exact lt_irrefl _ this
  · intro y hy
    rw [h2, List.mem_append, List.mem_singleton] at hy
    rw [hn]
    rcases hy with hy | hy
    · exact Nat.lt_succ_of_lt (hwf.2 y hy)
    · rw [hy, hnid]; exact Nat.lt_succ_self _
  · intro y hy
    rw [h2, List.mem_append, List.mem_singleton] at hy
    rcases hy with hy | hy
    · exact Or.inl ⟨y, hy, y.evolves_refl⟩
    · exact Or.inr hy

/-- The step made by an accepted approve. -/
theorem approve_step (db : database) (o : music_contract_approve_operation)
    (hwf : db.by_id_unique)
    (hacc : (music_contract_approve_evaluator.evaluate db o).1 = Except.ok ()) :
    (music_contract_approve_evaluator.evaluate db o).2.by_id_unique ∧
    ∀ y ∈ (music_contract_approve_evaluator.evaluate db o).2.contracts,
      ∃ x ∈ db.contracts, x.evolves y := by
  obtain ⟨c, hc, -⟩ := (music_contract_approve_evaluator.approve_evaluate_ok_iff db o).1
    (music_contract_approve_evaluator.do_evaluate_of_accepted db o hacc)
  obtain ⟨-, -, hmem⟩ := database.get_music_contract_key db _ _ c hc
  by_cases happ : o.approve = true
  · rcases music_contract_approve_evaluator.evaluate_approve db o c hc hacc happ with
      ⟨-, hs, heq⟩ | ⟨-, -, ha, heq⟩
    · rw [heq]
      by_cases hag : c.agent_approved = true
      · simp only [hag, if_true]
        refine database.step_of_map db _ hwf c hmem
          (fun ctr => { ctr with signed := true,
                                 pending_fee := { ctr.pending_fee with amount := 0 } })
          (fun _ => rfl) ?_ ?_ rfl
        · refine ⟨rfl, rfl, rfl, fun _ => rfl, fun h => h, fun h => h, Or.inl rfl,
            Or.inr ⟨?_, ?_, rfl⟩⟩
          · simp [music_contract_object.is_approved, hs]
          · simp [music_contract_object.is_approved, hag]
        · exact map_modify_twice db.contracts c.id _ _ (fun _ => rfl)
      · simp only [hag, if_false]
        refine database.step_of_map db _ hwf c hmem
          (fun ctr => { ctr with signed := true }) (fun _ => rfl) ?_ rfl rfl
        refine ⟨rfl, rfl, rfl, fun _ => rfl, fun h => h, fun h => h, Or.inl rfl,
          Or.inl ⟨rfl, ?_⟩⟩
        simp [music_contract_object.is_approved, hs, hag]
    · rw [heq]
      by_cases hsg : c.signed = true
      · simp only [hsg, if_true]
        refine database.step_of_map db _ hwf c hmem
          (fun ctr => { ctr with agent_approved := true,
                                 pending_fee := { ctr.pending_fee with amount := 0 } })
          (fun _ => rfl) ?_ ?_ rfl
        · refine ⟨rfl, rfl, rfl, fun h => h, fun _ => rfl, fun h => h, Or.inl rfl,
            Or.inr ⟨?_, ?_, rfl⟩⟩
          · simp [music_contract_object.is_approved, ha]
          · simp [music_contract_object.is_approved, hsg]
        · exact map_modify_twice db.contracts c.id _ _ (fun _ => rfl)
      · simp only [hsg, if_false]
        refine database.step_of_map db _ hwf c hmem
          (fun ctr => { ctr with agent_approved := true }) (fun _ => rfl) ?_ rfl rfl
        refine ⟨rfl, rfl, rfl, fun h => h, fun _ => rfl, fun h => h, Or.inl rfl,
          Or.inl ⟨rfl, ?_⟩⟩
        simp [music_contract_object.is_approved, ha, hsg]
  · rw [(music_contract_approve_evaluator.evaluate_reject db o c hc hacc
      (by simpa using happ)).1]
    exact database.step_of_filter db _ hwf c.id rfl rfl

/-- The step made by an accepted dispute. -/
theorem dispute_step (hf : time_point_sec) (tb : account_id_type → Bool) (db : database)
    (o : music_contract_dispute_operation) (hwf : db.by_id_unique)
    (hacc : (music_contract_dispute_evaluator.evaluate hf tb db o).1 = Except.ok ()) :
    (music_contract_dispute_evaluator.evaluate hf tb db o).2.by_id_unique ∧
    ∀ y ∈ (music_contract_dispute_evaluator.evaluate hf tb db o).2.contracts,
      ∃ x ∈ db.contracts, x.evolves y := by
  have he : music_contract_dispute_evaluator.do_evaluate tb db o = Except.ok () := by
    unfold music_contract_dispute_evaluator.evaluate at hacc
    cases he : music_contract_dispute_evaluator.do_evaluate tb db o with
    | error e => simp [he] at hacc
    | ok u => rfl
  obtain ⟨c, hc, -⟩ := (music_contract_dispute_evaluator.dispute_evaluate_ok_iff tb db o).1 he
  obtain ⟨-, -, hmem⟩ := database.get_music_contract_key db _ _ c hc
  rw [(music_contract_dispute_evaluator.dispute_accepted_facts hf tb db o c hc hacc).2.2.2.2.2.2]
  refine database.step_of_map db _ hwf c hmem
    (fun ctr => { ctr with disputed := true }) (fun _ => rfl) ?_ rfl rfl
  exact ⟨rfl, rfl, rfl, fun h => h, fun h => h, fun _ => rfl, Or.inl rfl,
    Or.inl ⟨rfl, rfl⟩⟩

/-- The step made by an accepted release. -/
theorem release_evolves (db : database) (o : music_contract_release_operation)
    (hwf : db.by_id_unique)
    (hacc : (music_contract_release_evaluator.evaluate db o).1 = Except.ok ()) :
    (music_contract_release_evaluator.evaluate db o).2.by_id_unique ∧
    ∀ y ∈ (music_contract_release_evaluator.evaluate db o).2.contracts,
      ∃ x ∈ db.contracts, x.evolves y := by
  have he := (music_contract_release_evaluator.accepted_iff db o).1 hacc
  obtain ⟨c, hc, hle, -, hpos, -⟩ :=
    (music_contract_release_evaluator.do_evaluate_ok_iff db o).1 he
  obtain ⟨-, -, hmem⟩ := database.get_music_contract_key db _ _ c hc
  rw [music_contract_release_evaluator.evaluate_of_ok db o c hc he]
  by_cases h0 : c.amount.amount - o.amount.amount = 0
  · rw [if_pos h0]
    exact database.step_of_filter db _ hwf c.id rfl rfl
  · rw [if_neg h0]
    refine database.step_of_map db _ hwf c hmem
      (fun x => { x with amount := { amount := x.amount.amount - o.amount.amount,
                                     asset_id := x.amount.asset_id } })
      (fun _ => rfl) ?_ rfl rfl
    refine ⟨rfl, rfl, rfl, fun h => h, fun h => h, fun h => h, Or.inr ⟨?_, ?_⟩,
      Or.inl ⟨rfl, rfl⟩⟩
    · show 0 < c.amount.amount - o.amount.amount
      rcases lt_or_eq_of_le hle with h | h
      · linarith
      · exact absurd (by rw [h]; exact sub_self _) h0
    · show c.amount.amount - o.amount.amount < c.amount.amount
      linarith

/-- The step made by an accepted operation: identities stay unique, and every object
of the new store is a stored object evolved, or the object a transfer has created. -/
theorem apply_operation_step (hf : time_point_sec) (tb : account_id_type → Bool)
    (db : database) (op : operation) (hwf : db.by_id_unique)
    (hacc : (apply_operation hf tb db op).1 = Except.ok ()) :
    (apply_operation hf tb db op).2.by_id_unique ∧
    ∀ y ∈ (apply_operation hf tb db op).2.contracts,
      (∃ x ∈ db.contracts, x.evolves y) ∨
      (∃ o, op = operation.transfer o ∧
        y = { music_contract_transfer_evaluator.init_contract o {} with
              id := db.next_id }) := by
  cases op with
  | transfer o =>
    have hsnd : (apply_operation hf tb db (operation.transfer o)).2
        = (music_contract_transfer_evaluator.evaluate db o).2 := by
      simp only [apply_operation]
      cases hr : music_contract_transfer_evaluator.evaluate db o with
      | mk r d => cases r <;> rfl
    have hfst : ∃ i, (music_contract_transfer_evaluator.evaluate db o).1 = Except.ok i := by
      simp only [apply_operation] at hacc
      cases hr : music_contract_transfer_evaluator.evaluate db o with
      | mk r d =>
        cases r with
        | error e => rw [hr] at hacc; simp at hacc
        | ok i => exact ⟨i, rfl⟩
    obtain ⟨i, hi⟩ := hfst
    obtain ⟨-, h2, h3, -⟩ := transfer_accepted db o i hi
    rw [hsnd]
    obtain ⟨hu, hall⟩ := database.step_of_append db _ hwf
      { music_contract_transfer_evaluator.init_contract o {} with id := db.next_id }
      rfl h2 h3
    refine ⟨hu, fun y hy => ?_⟩
    rcases hall y hy with h | h
    · exact Or.inl h
    · exact Or.inr ⟨o, rfl, h⟩
  | approve o =>
    obtain ⟨hu, hall⟩ := approve_step db o hwf hacc
    exact ⟨hu, fun y hy => Or.inl (hall y hy)⟩
  | dispute o =>
    obtain ⟨hu, hall⟩ := dispute_step hf tb db o hwf hacc
    exact ⟨hu, fun y hy => Or.inl (hall y hy)⟩
  | release o =>
    obtain ⟨hu, hall⟩ := release_evolves db o hwf hacc
    exact ⟨hu, fun y hy => Or.inl (hall y hy)⟩

/-- A property of stored objects that the evolution of an object keeps and that
created objects have holds in every store the chain reaches. -/
theorem run_invariant (hf : time_point_sec) (tb : account_id_type → Bool)
    (P : music_contract_object → Prop)
    (hP : ∀ x y : music_contract_object, x.evolves y → P x → P y) :
    ∀ (steps : List chain_step) (db db2 : database),
      db.by_id_unique → (∀ x ∈ db.contracts, P x) →
      (∀ o, chain_step.op (operation.transfer o) ∈ steps →
        ∀ n, P { music_contract_transfer_evaluator.init_contract o {} with id := n }) →
      run hf tb db steps = some db2 →
      db2.by_id_unique ∧ ∀ y ∈ db2.contracts, P y := by
  intro steps
  induction steps with
  | nil =>
    intro db db2 hwf hall _ hrun
    simp only [run, Option.some.injEq] at hrun
    subst hrun
    exact ⟨hwf, hall⟩
  | cons st rest ih =>
    intro db db2 hwf hall hnew hrun
    have hnew_rest : ∀ o, chain_step.op (operation.transfer o) ∈ rest →
        ∀ n, P { music_contract_transfer_evaluator.init_contract o {} with id := n } :=
      fun o ho => hnew o (List.mem_cons_of_mem _ ho)
    cases st with
    | op o =>
      simp only [run] at hrun
      cases hr : (apply_operation hf tb db o).1 with
      | error e => simp [hr] at hrun
      | ok u =>
        simp only [hr] at hrun
        obtain ⟨hu, hstep⟩ := apply_operation_step hf tb db o hwf hr
        refine ih _ db2 hu ?_ hnew_rest hrun
        intro y hy
        rcases hstep y hy with ⟨x, hx, hxy⟩ | ⟨t, ht, hyt⟩
        · exact hP x y hxy (hall x hx)
        · rw [hyt]
          exact hnew t (by rw [ht]; exact List.mem_cons_self _ _) _
    | new_block t =>
      simp only [run] at hrun
      split_ifs at hrun
      exact ih { db with head_block_time := t } db2 hwf hall hnew_rest hrun

/-- In a store with unique identities, the object that carries the identity of a
stored object after an accepted operation is that object, evolved. -/
theorem evolves_of_same_id (hf : time_point_sec) (tb : account_id_type → Bool)
    (db : database) (op : operation) (hwf : db.by_id_unique)
    (hacc : (apply_operation hf tb db op).1 = Except.ok ())
    (x y : music_contract_object) (hx : x ∈ db.contracts)
    (hy : y ∈ (apply_operation hf tb db op).2.contracts) (hid : y.id = x.id) :
    x.evolves y := by
  rcases (apply_operation_step hf tb db op hwf hacc).2 y hy with ⟨z, hz, hzy⟩ | ⟨o, -, hyo⟩
  · have : z = x := db.eq_of_id_eq hwf z x hz hx (hzy.1.symm.trans hid)
    rw [← this]
    exact hzy
  · exfalso
    have h1 : y.id = db.next_id := by rw [hyo]
    have h2 := hwf.2 x hx
    rw [← hid, h1] at h2
    exact lt_irrefl _ h2

/-! ## The flags and the amount over the steps of the chain -/

/-- C19: starting from the empty store, the producer opens contract 1, the agent
approves, and after a later block the musician raises a dispute; every step is
accepted, and the record is then disputed and approved by the agent while `signed`,
the approval of the musician, is false: a disputed record that is not fully
approved. -/
theorem disputed_without_full_approval :
    funded_db.contracts = [] ∧
    (run 0 account_id_nonzero funded_db early_dispute_steps).map
        (fun db => db.contracts.map
          (fun c => (c.signed, c.agent_approved, c.disputed, c.is_approved)))
      = some [(false, true, true, false)] :=
  ⟨rfl, rfl⟩

/-- C20 fails on the code: from the empty store the transfer that opens a contract with
an escrowed amount of 0 is accepted and leaves a record with `amount.amount = 0` in
the store; the same holds for the amount -5. -/
theorem record_with_zero_amount :
    rich_db.contracts = [] ∧
    (run 0 account_id_nonzero rich_db
        [chain_step.op (operation.transfer (open_with_amount 0))]).map
        (fun db => db.contracts.map (fun c => c.amount.amount)) = some [0] ∧
    (run 0 account_id_nonzero rich_db
        [chain_step.op (operation.transfer (open_with_amount (-5)))]).map
        (fun db => db.contracts.map (fun c => c.amount.amount)) = some [-5] :=
  ⟨rfl, rfl, rfl⟩

/-- C20 as amended: in every state reached from an empty store by accepted operations
(and new blocks), when every transfer among them carries a positive amount, every
record in the store has a positive amount; and an accepted release removes the record
it addresses exactly when the amount left is 0. -/
theorem amounts_stay_positive (hf : time_point_sec) (tb : account_id_type → Bool)
    (db0 db : database) (steps : List chain_step) (hempty : db0.contracts = [])
    (hopen : ∀ o, chain_step.op (operation.transfer o) ∈ steps → 0 < o.amount.amount)
    (hrun : run hf tb db0 steps = some db) :
    (∀ c ∈ db.contracts, 0 < c.amount.amount) ∧
    (∀ o c, db.get_music_contract o.producer o.contract_id = Except.ok c →
      (music_contract_release_evaluator.evaluate db o).1 = Except.ok () →
      (c.amount.amount - o.amount.amount = 0 ↔
        ∀ x ∈ (music_contract_release_evaluator.evaluate db o).2.contracts,
          x.id ≠ c.id)) := by
  have hwf0 : db0.by_id_unique := by
    unfold database.by_id_unique
    rw [hempty]
    exact ⟨List.nodup_nil, fun _ h => absurd h (List.not_mem_nil _)⟩
  constructor
  · refine (run_invariant hf tb (fun c => 0 < c.amount.amount) ?_ steps db0 db hwf0 ?_ ?_
      hrun).2
    · intro x y hxy hx
      rcases hxy.2.2.2.2.2.2.1 with h | h
      · show 0 < y.amount.amount
        rw [h]; exact hx
      · exact h.1
    · intro x hx
      rw [hempty] at hx
      exact absurd hx (List.not_mem_nil _)
    · intro o ho n
      exact hopen o ho
  · intro o c hc hacc
    have he := (music_contract_release_evaluator.accepted_iff db o).1 hacc
    obtain ⟨-, -, hmem⟩ := database.get_music_contract_key db _ _ c hc
    rw [music_contract_release_evaluator.evaluate_of_ok db o c hc he]
    constructor
    · intro h0 x hx
      rw [if_pos h0] at hx
      simpa using (List.mem_filter.1 hx).2
    · intro hall
      by_contra h0
      rw [if_neg h0] at hall
      refine hall _ (List.mem_map_of_mem _ hmem) ?_
      simp

/-- Witness for C20 as amended: the scenario (open 100, two approvals, release of 40)
runs from the empty store `funded_db`; the record it leaves holds 60. -/
theorem amounts_stay_positive_witness :
    funded_db.contracts = [] ∧
    run 0 account_id_nonzero funded_db scenario_steps = some scenario_db ∧
    scenario_db.contracts.map (fun c => c.amount.amount) = [60] ∧
    (∀ c ∈ scenario_db.contracts, 0 < c.amount.amount) :=
  ⟨rfl, rfl, rfl,
   (amounts_stay_positive 0 account_id_nonzero funded_db scenario_db scenario_steps rfl
      (by
        intro o ho
        simp only [scenario_steps, List.mem_cons, chain_step.op.injEq,
          operation.transfer.injEq, List.mem_singleton, reduceCtorEq, or_false,
          List.not_mem_nil] at ho
        rw [ho]
        decide)
      rfl).1⟩

/-- One accepted operation never clears a flag of a record that stays in the store. -/
theorem flags_monotone_step (hf : time_point_sec) (tb : account_id_type → Bool)
    (db : database) (op : operation) (hwf : db.by_id_unique)
    (hacc : (apply_operation hf tb db op).1 = Except.ok ())
    (x y : music_contract_object) (hx : x ∈ db.contracts)
    (hy : y ∈ (apply_operation hf tb db op).2.contracts) (hid : y.id = x.id) :
    (x.signed = true → y.signed = true) ∧
    (x.agent_approved = true → y.agent_approved = true) ∧
    (x.disputed = true → y.disputed = true) := by
  have h := evolves_of_same_id hf tb db op hwf hacc x y hx hy hid
  exact ⟨h.2.2.2.1, h.2.2.2.2.1, h.2.2.2.2.2.1⟩

/-! ## The pending fee -/

/-- C14 fails on the code for a negative agent fee: the transfer with an agent fee of
-5 is accepted and, after the approval of the musician, the record has a pending fee
of -5; the approval of the agent, which sets the second flag, takes the pending fee
from -5 to 0, so that it increases, and takes 5 from the agent, whose balance goes from
0 to -5. -/
theorem negative_pending_fee_increases :
    (music_contract_transfer_evaluator.evaluate funded_db (open_with_agent_fee (-5))).1
      = Except.ok 0 ∧
    (music_contract_approve_evaluator.evaluate
      (music_contract_transfer_evaluator.evaluate funded_db (open_with_agent_fee (-5))).2
      (approve_op 1 true)).1 = Except.ok () ∧
    (negative_fee_db.get_music_contract 0 1).map
        (fun c => (c.signed, c.agent_approved, c.pending_fee.amount))
      = Except.ok (true, false, -5) ∧
    negative_fee_db.balances 2 0 = 0 ∧
    (music_contract_approve_evaluator.evaluate negative_fee_db (approve_op 2 true)).1
      = Except.ok () ∧
    ((music_contract_approve_evaluator.evaluate negative_fee_db
        (approve_op 2 true)).2.get_music_contract 0 1).map
        (fun c => (c.signed, c.agent_approved, c.pending_fee.amount))
      = Except.ok (true, true, 0) ∧
    (music_contract_approve_evaluator.evaluate negative_fee_db
        (approve_op 2 true)).2.balances 2 0 = -5 :=
  ⟨rfl, rfl, rfl, rfl, rfl, rfl, rfl⟩

/-- C14 as amended: (1) the accepted approval that sets the second flag of the record
`c` (by the musician when the agent has approved, or by the agent when the musician has
approved) credits the agent with exactly `c.pending_fee` and changes no other balance,
and the record is then fully approved with a pending fee of 0.  (2) In every state
reached from an empty store a fully approved record has a pending fee of 0.  (3) In a
store with unique identities an accepted operation leaves the pending fee of a record
that stays in the store as it was or sets it to 0, so that a fee that is not negative
never increases, and a fully approved record stays fully approved with its pending fee
as it was.  (4) An approve addressed to a fully approved record fails, so the pending
fee is not credited again.  (5) In every state reached from an empty store by
operations whose transfers carry an agent fee that is not negative, no record has a
negative pending fee.  (6) The release of the pending fee is not the only credit of the
fee: an accepted transfer with a positive agent fee has credited the agent with the
agent fee already (line 48), the balances after it being those before it with the
agent fee moved from the producer to the agent and the amount taken from the
producer. -/
theorem pending_fee_released_once (hf : time_point_sec) (tb : account_id_type → Bool) :
    (∀ (db : database) (o : music_contract_approve_operation) (c : music_contract_object),
      db.get_music_contract o.producer o.contract_id = Except.ok c →
      (music_contract_approve_evaluator.evaluate db o).1 = Except.ok () →
      o.approve = true →
      ((o.who = c.musician ∧ c.agent_approved = true) ∨
        (o.who = c.agent ∧ c.signed = true)) →
      (∀ acc a, (music_contract_approve_evaluator.evaluate db o).2.balances acc a
        = db.balances acc a +
          (if acc = c.agent ∧ a = c.pending_fee.asset_id
            then c.pending_fee.amount else 0)) ∧
      ∃ c2, (music_contract_approve_evaluator.evaluate db o).2.get_music_contract
            o.producer o.contract_id = Except.ok c2 ∧
        c2.signed = true ∧ c2.agent_approved = true ∧ c2.pending_fee.amount = 0) ∧
    (∀ (db0 db : database) (steps : List chain_step), db0.contracts = [] →
      run hf tb db0 steps = some db →
      ∀ c ∈ db.contracts, c.is_approved = true → c.pending_fee.amount = 0) ∧
    (∀ (db : database) (op : operation) (c : music_contract_object), db.by_id_unique →
      c ∈ db.contracts → (apply_operation hf tb db op).1 = Except.ok () →
      ∀ c2 ∈ (apply_operation hf tb db op).2.contracts, c2.id = c.id →
        (c2.pending_fee.amount = c.pending_fee.amount ∨ c2.pending_fee.amount = 0) ∧
        (0 ≤ c.pending_fee.amount → c2.pending_fee.amount ≤ c.pending_fee.amount) ∧
        (c.is_approved = true → c2.is_approved = true ∧ c2.pending_fee = c.pending_fee)) ∧
    (∀ (db : database) (o : music_contract_approve_operation) (c : music_contract_object),
      db.get_music_contract o.producer o.contract_id = Except.ok c →
      c.is_approved = true →
      ∃ e, music_contract_approve_evaluator.evaluate db o = (Except.error e, db)) ∧
    (∀ (db0 db : database) (steps : List chain_step), db0.contracts = [] →
      (∀ o, chain_step.op (operation.transfer o) ∈ steps → 0 ≤ o.agent_fee.amount) →
      run hf tb db0 steps = some db →
      ∀ c ∈ db.contracts, 0 ≤ c.pending_fee.amount) ∧
    (∀ (db : database) (o : music_contract_transfer_operation) (i : object_id_type),
      (music_contract_transfer_evaluator.evaluate db o).1 = Except.ok i →
      ∀ acc a, (music_contract_transfer_evaluator.evaluate db o).2.balances acc a
        = db.balances acc a
          + (if 0 < o.agent_fee.amount ∧ acc = o.producer ∧ a = o.agent_fee.asset_id
              then -o.agent_fee.amount else 0)
          + (if 0 < o.agent_fee.amount ∧ acc = o.agent ∧ a = o.agent_fee.asset_id
              then o.agent_fee.amount else 0)
          + (if acc = o.producer ∧ a = o.amount.asset_id
              then -o.amount.amount else 0)) := by
  refine ⟨?_, ?_, ?_, ?_, ?_, ?_⟩
  · intro db o c hc hacc happ hsecond
    obtain ⟨hm, ha, -, -⟩ := music_contract_approve_evaluator.approve_accepted_facts db o c hc hacc
    have hout := music_contract_approve_evaluator.approve_outcome db o c hc hacc happ
    rcases hsecond with ⟨hw, hag⟩ | ⟨hw, hsg⟩
    · rcases hout with ⟨-, -, -, ht⟩ | ⟨hne, -⟩
      · obtain ⟨hl, hb⟩ := ht hag
        refine ⟨?_, _, hl, rfl, hag, rfl⟩
        intro acc a
        rw [hb, database.balances_adjust_balance, ha]
      · exact absurd (hw.trans hm) hne
    · rcases hout with ⟨-, hs, -⟩ | ⟨-, -, -, -, ht⟩
      · exact absurd (hs.symm.trans hsg) (by simp)
      · obtain ⟨hl, hb⟩ := ht hsg
        refine ⟨?_, _, hl, hsg, rfl, rfl⟩
        intro acc a
        rw [hb, database.balances_adjust_balance, ha]
  · intro db0 db steps hempty hrun
    have hwf0 : db0.by_id_unique := by
      unfold database.by_id_unique
      rw [hempty]
      exact ⟨List.nodup_nil, fun _ h => absurd h (List.not_mem_nil _)⟩
    refine (run_invariant hf tb
      (fun c => c.is_approved = true → c.pending_fee.amount = 0) ?_ steps db0 db hwf0 ?_ ?_
      hrun).2
    · intro x y hxy hx hy
      rcases hxy.2.2.2.2.2.2.2 with h | h
      · rw [h.1]
        exact hx (h.2 ▸ hy)
      · exact h.2.2
    · intro x hx
      rw [hempty] at hx
      exact absurd hx (List.not_mem_nil _)
    · intro o _ n h
      simp [music_contract_object.is_approved,
        music_contract_transfer_evaluator.init_contract] at h
  · intro db op c hwf hmem hacc c2 hc2 hid
    have h := evolves_of_same_id hf tb db op hwf hacc c c2 hmem hc2 hid
    rcases h.2.2.2.2.2.2.2 with h1 | h1
    · exact ⟨Or.inl (by rw [h1.1]), fun _ => le_of_eq (by rw [h1.1]),
        fun happ => ⟨h1.2.trans happ, h1.1⟩⟩
    · exact ⟨Or.inr h1.2.2, fun h0 => by rw [h1.2.2]; exact h0,
        fun happ => absurd (h1.1.symm.trans happ) (by simp)⟩
  · intro db o c hc happ
    apply music_contract_approve_evaluator.approve_of_not_ok
    intro hacc
    obtain ⟨-, -, -, hw⟩ := music_contract_approve_evaluator.approve_accepted_facts db o c hc hacc
    simp only [music_contract_object.is_approved, Bool.and_eq_true] at happ
    rcases hw with hw | hw
    · rw [happ.1] at hw; exact absurd hw.2 (by simp)
    · rw [happ.2] at hw; exact absurd hw.2.2 (by simp)
  · intro db0 db steps hempty hopen hrun
    have hwf0 : db0.by_id_unique := by
      unfold database.by_id_unique
      rw [hempty]
      exact ⟨List.nodup_nil, fun _ h => absurd h (List.not_mem_nil _)⟩
    refine (run_invariant hf tb (fun c => 0 ≤ c.pending_fee.amount) ?_ steps db0 db hwf0
      ?_ ?_ hrun).2
    · intro x y hxy hx
      rcases hxy.2.2.2.2.2.2.2 with h | h
      · show 0 ≤ y.pending_fee.amount
        rw [h.1]; exact hx
      · exact le_of_eq h.2.2.symm
    · intro x hx
      rw [hempty] at hx
      exact absurd hx (List.not_mem_nil _)
    · intro o ho n
      exact hopen o ho
  · intro db o i hacc
    exact (transfer_accepted db o i hacc).2.2.2

/-- Witness for C14 as amended: the musician has approved and the fee of 5 is pending; the approval
of the agent (account 2) credits the agent with 5 and leaves the record fully approved
with a pending fee of 0; a further approve then fails; the scenario run from the
empty store leaves a fully approved record without pending fee; and the transfer of the
scenario has credited the agent with the fee of 5 already. -/
theorem pending_fee_released_once_witness :
    half_approved_db.get_music_contract 0 1 = Except.ok half_approved_record ∧
    half_approved_record.pending_fee.amount = 5 ∧
    (music_contract_approve_evaluator.evaluate half_approved_db (approve_op 2 true)).2.balances
        2 0 = half_approved_db.balances 2 0 + 5 ∧
    (∃ c2, (music_contract_approve_evaluator.evaluate half_approved_db
          (approve_op 2 true)).2.get_music_contract 0 1 = Except.ok c2 ∧
        c2.signed = true ∧ c2.agent_approved = true ∧ c2.pending_fee.amount = 0) ∧
    (∀ c ∈ scenario_db.contracts, c.is_approved = true → c.pending_fee.amount = 0) ∧
    (∃ e, music_contract_approve_evaluator.evaluate approved_db (approve_op 2 true)
      = (Except.error e, approved_db)) ∧
    (∀ c ∈ scenario_db.contracts, 0 ≤ c.pending_fee.amount) ∧
    (music_contract_transfer_evaluator.evaluate funded_db open_op).2.balances 2 0 = 5 :=
  ⟨rfl, rfl,
   ((pending_fee_released_once 0 account_id_nonzero).1 half_approved_db (approve_op 2 true)
      half_approved_record rfl rfl rfl (Or.inr ⟨rfl, rfl⟩)).1 2 0,
   ((pending_fee_released_once 0 account_id_nonzero).1 half_approved_db (approve_op 2 true)
      half_approved_record rfl rfl rfl (Or.inr ⟨rfl, rfl⟩)).2,
   (pending_fee_released_once 0 account_id_nonzero).2.1 funded_db scenario_db scenario_steps
      rfl rfl,
   (pending_fee_released_once 0 account_id_nonzero).2.2.2.1 approved_db (approve_op 2 true)
      approved_record rfl rfl,
   (pending_fee_released_once 0 account_id_nonzero).2.2.2.2.1 funded_db scenario_db
      scenario_steps rfl
      (by
        intro o ho
        simp only [scenario_steps, List.mem_cons, chain_step.op.injEq,
          operation.transfer.injEq, List.mem_singleton, reduceCtorEq, or_false,
          List.not_mem_nil] at ho
        rw [ho]
        decide)
      rfl,
   ((pending_fee_released_once 0 account_id_nonzero).2.2.2.2.2 funded_db open_op 0 rfl
      2 0).trans (by decide)⟩

/-! ## Frame -/

/-- In a store with unique identities, the update of the object with the identity of
`c` changes `c` and nothing else. -/
theorem database.map_if_id_eq (db : database) (hwf : db.by_id_unique)
    (c : music_contract_object) (hc : c ∈ db.contracts)
    (m : music_contract_object → music_contract_object) :
    db.contracts.map (fun x => if x.id = c.id then m x else x)
      = db.contracts.map (fun x => if x = c then m c else x) := by
  apply List.map_congr_left
  intro x hx
  by_cases h : x.id = c.id
  · have hxc : x = c := db.eq_of_id_eq hwf x c hx hc h
    simp [hxc]
  · have hxc : x ≠ c := fun h2 => h (by rw [h2])
    simp [h, hxc]

/-- The frame of an accepted approval. -/
theorem approve_frame (db : database) (o : music_contract_approve_operation)
    (c : music_contract_object) (hwf : db.by_id_unique)
    (hc : db.get_music_contract o.producer o.contract_id = Except.ok c)
    (hacc : (music_contract_approve_evaluator.evaluate db o).1 = Except.ok ())
    (happ : o.approve = true) :
    ∃ c2, (music_contract_approve_evaluator.evaluate db o).2.get_music_contract
          o.producer o.contract_id = Except.ok c2 ∧
      c2 = { c with signed := c2.signed, agent_approved := c2.agent_approved,
                    pending_fee := { c.pending_fee with amount := c2.pending_fee.amount } } ∧
      (music_contract_approve_evaluator.evaluate db o).2.contracts
        = db.contracts.map (fun x => if x = c then c2 else x) := by
  obtain ⟨-, -, hmem⟩ := database.get_music_contract_key db _ _ c hc
  have hout := music_contract_approve_evaluator.approve_outcome db o c hc hacc happ
  rcases music_contract_approve_evaluator.evaluate_approve db o c hc hacc happ with
    ⟨h1, hs, heq⟩ | ⟨h1, h2, ha, heq⟩
  · rcases hout with ⟨-, -, hf, ht⟩ | ⟨hne, -⟩
    · by_cases hag : c.agent_approved = true
      · have hl := (ht hag).1
        refine ⟨_, hl, rfl, ?_⟩
        rw [heq, if_pos hag]
        refine Eq.trans (map_modify_twice db.contracts c.id _ _ (fun _ => rfl)) ?_
        exact database.map_if_id_eq db hwf c hmem
          (fun ctr => { ctr with signed := true,
                                 pending_fee := { ctr.pending_fee with amount := 0 } })
      · have hl := (hf (by simpa using hag)).1
        refine ⟨_, hl, rfl, ?_⟩
        rw [heq, if_neg hag]
        exact database.map_if_id_eq db hwf c hmem (fun ctr => { ctr with signed := true })
    · exact absurd h1 hne
  · rcases hout with ⟨he, -⟩ | ⟨-, -, -, hf, ht⟩
    · exact absurd he h1
    · by_cases hsg : c.signed = true
      · have hl := (ht hsg).1
        refine ⟨_, hl, rfl, ?_⟩
        rw [heq, if_pos hsg]
        refine Eq.trans (map_modify_twice db.contracts c.id _ _ (fun _ => rfl)) ?_
        exact database.map_if_id_eq db hwf c hmem
          (fun ctr => { ctr with agent_approved := true,
                                 pending_fee := { ctr.pending_fee with amount := 0 } })
      · have hl := (hf (by simpa using hsg)).1
        refine ⟨_, hl, rfl, ?_⟩
        rw [heq, if_neg hsg]
        exact database.map_if_id_eq db hwf c hmem
          (fun ctr => { ctr with agent_approved := true })

/-- C21: in a store with unique identities.  An accepted approval (`approve = true`)
of the record `c` leaves a record `c2` that differs from `c` at most in `signed`,
`agent_approved` and `pending_fee.amount`; an accepted dispute leaves `c` with
`disputed` set and nothing else changed; an accepted release that leaves a rest
changes `amount.amount` only.  So the identifier, the producer, the musician, the
agent, the two deadlines and the asset type of the amount stay as they are, and in
each case every other record of the store is as it was. -/
theorem frame_of_mutating_evaluators (hf : time_point_sec) (tb : account_id_type → Bool)
    (db : database) (hwf : db.by_id_unique) :
    (∀ o c, db.get_music_contract o.producer o.contract_id = Except.ok c →
      (music_contract_approve_evaluator.evaluate db o).1 = Except.ok () →
      o.approve = true →
      ∃ c2, (music_contract_approve_evaluator.evaluate db o).2.get_music_contract
            o.producer o.contract_id = Except.ok c2 ∧
        c2 = { c with signed := c2.signed, agent_approved := c2.agent_approved,
                      pending_fee := { c.pending_fee with
                                       amount := c2.pending_fee.amount } } ∧
        (c2.contract_id = c.contract_id ∧ c2.producer = c.producer ∧
          c2.musician = c.musician ∧ c2.agent = c.agent ∧
          c2.ratification_deadline = c.ratification_deadline ∧
          c2.contract_expiration = c.contract_expiration ∧ c2.amount = c.amount ∧
          c2.disputed = c.disputed ∧ c2.pending_fee.asset_id = c.pending_fee.asset_id) ∧
        (music_contract_approve_evaluator.evaluate db o).2.contracts
          = db.contracts.map (fun x => if x = c then c2 else x)) ∧
    (∀ o c, db.get_music_contract o.producer o.contract_id = Except.ok c →
      (music_contract_dispute_evaluator.evaluate hf tb db o).1 = Except.ok () →
      (music_contract_dispute_evaluator.evaluate hf tb db o).2.get_music_contract
          o.producer o.contract_id = Except.ok { c with disputed := true } ∧
      (music_contract_dispute_evaluator.evaluate hf tb db o).2.contracts
        = db.contracts.map (fun x => if x = c then { c with disputed := true } else x)) ∧
    (∀ o c, db.get_music_contract o.producer o.contract_id = Except.ok c →
      (music_contract_release_evaluator.evaluate db o).1 = Except.ok () →
      c.amount.amount - o.amount.amount ≠ 0 →
      (music_contract_release_evaluator.evaluate db o).2.get_music_contract
          o.producer o.contract_id
        = Except.ok { c with amount := { c.amount with
                                         amount := c.amount.amount - o.amount.amount } } ∧
      (music_contract_release_evaluator.evaluate db o).2.contracts
        = db.contracts.map (fun x => if x = c then
            { c with amount := { c.amount with
                                 amount := c.amount.amount - o.amount.amount } } else x)) := by
  refine ⟨?_, ?_, ?_⟩
  · intro o c hc hacc happ
    obtain ⟨c2, hl, heq, hmap⟩ := approve_frame db o c hwf hc hacc happ
    exact ⟨c2, hl, heq,
      ⟨congrArg (fun x => x.contract_id) heq, congrArg (fun x => x.producer) heq,
        congrArg (fun x => x.musician) heq, congrArg (fun x => x.agent) heq,
        congrArg (fun x => x.ratification_deadline) heq,
        congrArg (fun x => x.contract_expiration) heq,
        congrArg (fun x => x.amount) heq, congrArg (fun x => x.disputed) heq,
        congrArg (fun x => x.pending_fee.asset_id) heq⟩, hmap⟩
  · intro o c hc hacc
    obtain ⟨-, -, hmem⟩ := database.get_music_contract_key db _ _ c hc
    rw [(music_contract_dispute_evaluator.dispute_accepted_facts hf tb db o c hc
      hacc).2.2.2.2.2.2]
    constructor
    · refine Eq.trans (database.get_music_contract_modify db c c _ ?_ _ _ hc) ?_
      · intro x; exact ⟨rfl, rfl⟩
      · simp
    · exact database.map_if_id_eq db hwf c hmem (fun ctr => { ctr with disputed := true })
  · intro o c hc hacc h0
    obtain ⟨-, -, hmem⟩ := database.get_music_contract_key db _ _ c hc
    have he := (music_contract_release_evaluator.accepted_iff db o).1 hacc
    rw [music_contract_release_evaluator.evaluate_of_ok db o c hc he, if_neg h0]
    constructor
    · have h := database.get_music_contract_map db o.producer o.contract_id c
        (fun x => if x.id = c.id then
          { x with amount := { amount := x.amount.amount - o.amount.amount,
                               asset_id := x.amount.asset_id } } else x) _
        (fun x => by dsimp only; split_ifs <;> exact ⟨rfl, rfl⟩) rfl hc
        { db with
          balances := (db.adjust_balance o.receiver o.amount).balances
          contracts := db.contracts.map (fun x => if x.id = c.id then
            { x with amount := { amount := x.amount.amount - o.amount.amount,
                                 asset_id := x.amount.asset_id } } else x) } rfl
      rw [h]
      simp
    · exact database.map_if_id_eq db hwf c hmem
        (fun x => { x with amount := { amount := x.amount.amount - o.amount.amount,
                                       asset_id := x.amount.asset_id } })

/-- Witness for C21: on the store with the single record of contract 1, the approval
of the musician sets `signed` only, the dispute sets `disputed` only, and the release
of 40 out of 100 leaves the record with 60, all other fields as before. -/
theorem frame_of_mutating_evaluators_witness :
    pending_db.by_id_unique ∧ approved_db.by_id_unique ∧
    (music_contract_approve_evaluator.evaluate pending_db (approve_op 1 true)).2.contracts
      = [{ pending_record with signed := true }] ∧
    (music_contract_dispute_evaluator.evaluate 0 account_id_nonzero approved_db
        (dispute_op 1)).2.contracts
      = [{ approved_record with disputed := true }] ∧
    (music_contract_release_evaluator.evaluate approved_db (release_op 1 1 40)).2.contracts
      = [{ approved_record with amount := { amount := 60, asset_id := 0 } }] :=
  ⟨⟨List.nodup_singleton _, by decide⟩, ⟨List.nodup_singleton _, by decide⟩,
   (match (frame_of_mutating_evaluators 0 account_id_nonzero pending_db
      ⟨List.nodup_singleton _, by decide⟩).1 (approve_op 1 true) pending_record rfl rfl
      rfl with
    | ⟨c2, hl, _, _, hmap⟩ => by
      have h3 : (music_contract_approve_evaluator.evaluate pending_db
          (approve_op 1 true)).2.get_music_contract 0 1
          = Except.ok { pending_record with signed := true } := rfl
      have h2 : c2 = { pending_record with signed := true } :=
        Except.ok.inj (hl.symm.trans h3)
      subst h2
      exact hmap.trans rfl),
   ((frame_of_mutating_evaluators 0 account_id_nonzero approved_db
      ⟨List.nodup_singleton _, by decide⟩).2.1 (dispute_op 1) approved_record rfl rfl).2,
   ((frame_of_mutating_evaluators 0 account_id_nonzero approved_db
      ⟨List.nodup_singleton _, by decide⟩).2.2 (release_op 1 1 40) approved_record rfl rfl
      (by decide)).2⟩

/-! ## Conservation of funds -/

/-- C22: the producer (account 0) owns 1000 and the store is empty, so the funds of the
three parties and the store are 1000.  The accepted transfer with an amount of 100 and
an agent fee of 5 leaves the producer 895, the agent (account 2) 5 and a record
holding 100 + 5: the funds are 1005, and no other balance has changed.  After the
rejection by the musician every account but the agent is back at its balance while the
agent keeps 5; after the two approvals instead the agent owns 10, the fee twice. -/
theorem transfer_creates_agent_fee :
    funded_db.total_funds [0, 1, 2] 0 = 1000 ∧
    (music_contract_transfer_evaluator.evaluate funded_db open_op).1 = Except.ok 0 ∧
    opened_db.balances 0 0 = 895 ∧ opened_db.balances 2 0 = 5 ∧ opened_db.held 0 = 105 ∧
    opened_db.total_funds [0, 1, 2] 0 = 1005 ∧
    (∀ acc a, acc ≠ 0 → acc ≠ 2 → opened_db.balances acc a = funded_db.balances acc a) ∧
    (music_contract_approve_evaluator.evaluate opened_db (approve_op 1 false)).1
      = Except.ok () ∧
    rejected_db.contracts = [] ∧
    rejected_db.balances 0 0 = 1000 ∧ rejected_db.balances 2 0 = 5 ∧
    funded_db.balances 2 0 = 0 ∧
    ratified_db.balances 2 0 = 10 ∧ ratified_db.held 0 = 100 ∧
    ratified_db.total_funds [0, 1, 2] 0 = 1005 := by
  refine ⟨rfl, rfl, rfl, rfl, rfl, rfl, ?_, rfl, rfl, rfl, rfl, rfl, rfl, rfl, rfl⟩
  intro acc a h0 h2
  simp [opened_db, music_contract_transfer_evaluator.evaluate,
    music_contract_transfer_evaluator.do_evaluate,
    music_contract_transfer_evaluator.do_apply, database.create, database.adjust_balance,
    database.get_balance, asset.ge, asset.add, asset.neg, FC_ASSERT, bind, Except.bind,
    pure, Except.pure, funded_db, open_op, h0, h2]

/-! ## After a missed ratification deadline -/

/-- C23: past the ratification deadline every approve addressed to the record fails,
and every release and every dispute addressed to a record without the approval of
the agent fails as well, the database staying as it was.  But a record that has the
approval of the agent only is not fully approved, and after its deadline the dispute
raised by the musician is accepted and sets `disputed`; the amount and the pending
fee stay. -/
theorem dispute_after_missed_deadline :
    (∀ (db : database) (o : music_contract_approve_operation) (c : music_contract_object),
      db.get_music_contract o.producer o.contract_id = Except.ok c →
      c.ratification_deadline < db.head_block_time →
      ∃ e, music_contract_approve_evaluator.evaluate db o = (Except.error e, db)) ∧
    (∀ (db : database) (o : music_contract_release_operation) (c : music_contract_object),
      db.get_music_contract o.producer o.contract_id = Except.ok c →
      c.is_approved = false →
      ∃ e, music_contract_release_evaluator.evaluate db o = (Except.error e, db)) ∧
    (∀ (hf : time_point_sec) (tb : account_id_type → Bool) (db : database)
      (o : music_contract_dispute_operation) (c : music_contract_object),
      db.get_music_contract o.producer o.contract_id = Except.ok c →
      c.agent_approved = false →
      ∃ e, music_contract_dispute_evaluator.evaluate hf tb db o = (Except.error e, db)) ∧
    late_agent_approved_db.get_music_contract 0 1 = Except.ok agent_approved_record ∧
    agent_approved_record.is_approved = false ∧
    agent_approved_record.ratification_deadline < late_agent_approved_db.head_block_time ∧
    (music_contract_dispute_evaluator.evaluate 0 account_id_nonzero late_agent_approved_db
        (dispute_op 1)).1 = Except.ok () ∧
    (music_contract_dispute_evaluator.evaluate 0 account_id_nonzero late_agent_approved_db
        (dispute_op 1)).2.contracts = [disputed_unsigned_record] ∧
    disputed_unsigned_record ≠ agent_approved_record ∧
    disputed_unsigned_record.amount = agent_approved_record.amount ∧
    disputed_unsigned_record.pending_fee = agent_approved_record.pending_fee := by
  refine ⟨?_, ?_, ?_, rfl, rfl, by decide, rfl, rfl, by decide, rfl, rfl⟩
  · intro db o c hc hlate
    apply music_contract_approve_evaluator.approve_of_not_ok
    intro hacc
    obtain ⟨-, -, ht, -⟩ :=
      music_contract_approve_evaluator.approve_accepted_facts db o c hc hacc
    exact absurd ht (Nat.not_le.mpr hlate)
  · intro db o c hc hna
    have hne : music_contract_release_evaluator.do_evaluate db o ≠ Except.ok () := by
      intro h
      obtain ⟨c1, hc1, -, -, -, -, -, -, hs, ha, -⟩ :=
        (music_contract_release_evaluator.do_evaluate_ok_iff db o).1 h
      rw [hc] at hc1
      cases hc1
      simp [music_contract_object.is_approved, hs, ha] at hna
    obtain ⟨e, he⟩ := music_contract_release_evaluator.not_ok_cases _ hne
    exact ⟨e, music_contract_release_evaluator.evaluate_of_error db o e he⟩
  · intro hf tb db o c hc hna
    apply music_contract_dispute_evaluator.dispute_of_not_ok
    intro hacc
    obtain ⟨-, h2, -⟩ :=
      music_contract_dispute_evaluator.dispute_accepted_facts hf tb db o c hc hacc
    rw [hna] at h2
    exact absurd h2 (by simp)

end graphene.chain
